import Mathlib

/-!
# Verification of the digestiflow-server sample-sheet and index checkers

Shallow embedding of the validation core of `flowcells/models.py`:
`FlowCell.get_sample_sheet_errors`, `FlowCell.get_index_errors`,
`Library.get_barcode_seq`, `Library.get_barcode_seq2`.

Python dicts are modelled as insertion-ordered association lists;
`dict.setdefault` followed by mutation is `upsert`, plain dict assignment is
`dassign`.  Python `None`-able strings are `Option String`; Python truthiness
of such a value ("set") is `optTruthy` (`none` and `""` are falsy).
-/

set_option autoImplicit false

namespace Digestiflow

universe u v

/-- Python `d[k]` lookup on an association list (first match wins; dicts built
by `upsert`/`dassign` have unique keys, so this is the dict lookup). -/
def alookup {α : Type u} {β : Type v} [DecidableEq α] (k : α) :
    List (α × β) → Option β
  | [] => none
  | (k', v) :: m => if k' = k then some v else alookup k m

/-- Python `d.setdefault(k, dflt)` followed by an in-place update `f` of the
stored value: if `k` is present its value becomes `f v`, otherwise the entry
`(k, f dflt)` is appended (insertion order, as for Python dicts). -/
def upsert {α : Type u} {β : Type v} [DecidableEq α] (k : α) (dflt : β)
    (f : β → β) : List (α × β) → List (α × β)
  | [] => [(k, f dflt)]
  | (k', v) :: m => if k' = k then (k', f v) :: m else (k', v) :: upsert k dflt f m

/-- Python `d[k] = v` dict assignment: replace in place, or append. -/
def dassign {α : Type u} {β : Type v} [DecidableEq α] (k : α) (v : β)
    (m : List (α × β)) : List (α × β) :=
  upsert k v (fun _ => v) m

/-- Python truthiness of an optional string: `None` and `""` are falsy. -/
def optTruthy : Option String → Bool
  | none => false
  | some s => !(s == "")

/-- Python `x or "-"` for an optional string. -/
def orDash : Option String → String
  | none => "-"
  | some s => if s == "" then "-" else s

/-- Group a (sorted) list of integers into maximal runs of consecutive values,
collapsing duplicates, accumulating the current run `[lo, hi]`. -/
def intoRunsFrom (lo hi : Int) : List Int → List (Int × Int)
  | [] => [(lo, hi)]
  | y :: ys =>
    if y = hi then intoRunsFrom lo hi ys
    else if y = hi + 1 then intoRunsFrom lo y ys
    else (lo, hi) :: intoRunsFrom y y ys

/-- Start grouping a sorted list of integers into consecutive runs. -/
def intoRuns : List Int → List (Int × Int)
  | [] => []
  | x :: xs => intoRunsFrom x x xs

/-- Render one run: a single page, or "lo-hi" for a longer run. -/
def renderRun (r : Int × Int) : String :=
  if r.1 = r.2 then toString r.1 else toString r.1 ++ "-" ++ toString r.2

/-- Insert into a sorted list of integers (helper of `sortInts`). -/
def insertSorted (x : Int) : List Int → List Int
  | [] => [x]
  | y :: ys => if x ≤ y then x :: y :: ys else y :: insertSorted x ys

/-- Python `sorted` on a list of integers (insertion sort; on integers any
correct sort agrees with Python's stable sort). -/
def sortInts : List Int → List Int
  | [] => []
  | x :: xs => insertSorted x (sortInts xs)

/-- `pretty_range` from `flowcells/models.py`.  Modelled from the spec: it
wraps the external `pagerange` library (`pagerange.PageRange(value).range`),
which is not part of this repository; per the spec it sorts and deduplicates
the numbers and renders them as compact human-readable ranges
("2-4" for consecutive values, "2,4" for non-consecutive ones). -/
def pretty_range (value : List Int) : String :=
  String.intercalate "," ((intoRuns (sortInts value)).map renderRun)

/-- `BarcodeSetEntry` (from `barcodes.models`): only the `sequence` field is
read by the checkers. -/
structure BarcodeSetEntry where
  sequence : String
  deriving DecidableEq, Repr

/-- `Library` from `flowcells/models.py`, restricted to the fields the
checkers read.  `sodar_uuid` is modelled as a natural number. -/
structure Library where
  sodar_uuid : Nat
  name : String
  barcode : Option BarcodeSetEntry
  barcode_seq : Option String
  barcode2 : Option BarcodeSetEntry
  barcode_seq2 : Option String
  lane_numbers : List Int
  deriving DecidableEq, Repr

/-- `Library.get_barcode_seq`: the resolved first barcode sequence, either
from the referenced `BarcodeSetEntry` or from the literal `barcode_seq`. -/
def Library.get_barcode_seq (l : Library) : Option String :=
  match l.barcode with
  | some b => some b.sequence
  | none => l.barcode_seq

/-- `Library.get_barcode_seq2`: the resolved second barcode sequence, either
from the referenced `BarcodeSetEntry` or from the literal `barcode_seq2`. -/
def Library.get_barcode_seq2 (l : Library) : Option String :=
  match l.barcode2 with
  | some b => some b.sequence
  | none => l.barcode_seq2

/-- `LaneIndexHistogram` from `flowcells/models.py`; the JSON histogram dict
is an insertion-ordered association list from sequence to count. -/
structure LaneIndexHistogram where
  lane : Int
  index_read_no : Int
  sample_size : Int
  histogram : List (String × Int)
  deriving DecidableEq, Repr

/-- `FlowCell`, restricted to the fields the checkers read.  `libraries` is
the `self.libraries.all()` collection (ordered by name, as per the model
`Meta.ordering`), `index_histograms` the `self.index_histograms.all()`
collection. -/
structure FlowCell where
  num_lanes : Int
  libraries : List Library
  index_histograms : List LaneIndexHistogram
  deriving DecidableEq, Repr

/-- The invalid-characters message of `get_sample_sheet_errors`. -/
def nameCharsMsg : String :=
  "Library names may only contain alphanumeric characters, hyphens, and underscores"

/-- The invalid-lane message of `get_sample_sheet_errors`:
`"Flow cell does not have lane{} #{}".format("s" if len(bad_lanes) > 1 else "", pretty_range(bad_lanes))`. -/
def laneMsg (bad_lanes : List Int) : String :=
  "Flow cell does not have lane" ++ (if bad_lanes.length > 1 then "s" else "")
    ++ " #" ++ pretty_range bad_lanes

/-- The name-uniqueness message of `get_sample_sheet_errors`. -/
def nameUniqMsg (nm : String) (lanes : List Int) : String :=
  "Library name " ++ nm ++ " is not unique for lane"
    ++ (if lanes.length > 1 then "s" else "") ++ " " ++ pretty_range lanes

/-- The barcode-uniqueness message of `get_sample_sheet_errors`. -/
def barcodeUniqMsg (s1 s2 : Option String) (lanes : List Int) : String :=
  "Barcode combination " ++ orDash s1 ++ "/" ++ orDash s2
    ++ " is not unique for lane" ++ (if lanes.length > 1 then "s" else "")
    ++ " " ++ pretty_range lanes

/-- The message of `get_index_errors`. -/
def indexErrMsg (seq : String) (lane : Int) (read_no : Int) : String :=
  "found barcode " ++ seq ++ " on lane " ++ toString lane ++ " and index read "
    ++ toString read_no ++ " in BCLs but not in sample sheet"

/-- One character of the class `[a-zA-Z0-9_-]`. -/
def nameChar (c : Char) : Bool :=
  ('a' ≤ c && c ≤ 'z') || ('A' ≤ c && c ≤ 'Z') || ('0' ≤ c && c ≤ '9')
    || c == '_' || c == '-'

/-- Python `re.match("^[a-zA-Z0-9_-]+$", s)` succeeds.  Note Python's `$`
also matches just before a single newline at the very end of the string. -/
def re_match_name (s : String) : Bool :=
  let cs := s.data
  (!cs.isEmpty && cs.all nameChar)
    || (match cs.getLast? with
        | some c => c == '\n' && !cs.dropLast.isEmpty && cs.dropLast.all nameChar
        | none => false)

/-- The error-report type of `get_sample_sheet_errors`: library UUID to field
name to list of messages (both levels insertion-ordered dicts). -/
abbrev ErrMap := List (Nat × List (String × List String))

/-- `result.setdefault(uuid, {}).setdefault(field, []).append(msg)`. -/
def addErr (m : ErrMap) (u : Nat) (field : String) (msg : String) : ErrMap :=
  upsert u [] (fun fm => upsert field [] (fun msgs => msgs ++ [msg]) fm) m

/-- `result.setdefault(uuid, {}).setdefault(field, msgs)` (no append: if the
field is already present the stored messages are kept). -/
def setdefaultErr (m : ErrMap) (u : Nat) (field : String) (msgs : List String) :
    ErrMap :=
  upsert u [] (fun fm => upsert field msgs id fm) m

/-- The mutable state of the first loop of `get_sample_sheet_errors`. -/
structure SheetMaps where
  result : ErrMap
  by_uuid : List (Nat × Library)
  by_name : List ((Int × String) × List Library)
  by_barcode : List ((Int × Option String) × List (Nat × Library))
  by_barcode2 : List ((Int × Option String) × List (Nat × Library))
  deriving Repr

/-- The per-lane body of `for lane in library.lane_numbers` in
`get_sample_sheet_errors`: record the library in `by_name`, `by_barcode`
and `by_barcode2`. -/
def gatherLane (library : Library) (st : SheetMaps) (lane : Int) : SheetMaps :=
  { st with
    by_name := upsert (lane, library.name) [] (fun ls => ls ++ [library]) st.by_name
    by_barcode := upsert (lane, library.get_barcode_seq) []
      (fun d => dassign library.sodar_uuid library d) st.by_barcode
    by_barcode2 := upsert (lane, library.get_barcode_seq2) []
      (fun d => dassign library.sodar_uuid library d) st.by_barcode2 }

/-- The sorted invalid lane numbers of a library:
`sorted(no for no in library.lane_numbers if no < 1 or no > num_lanes)`. -/
def badLaneNumbers (num_lanes : Int) (library : Library) : List Int :=
  sortInts (library.lane_numbers.filter (fun no => no < 1 || no > num_lanes))

/-- The per-library body of the first loop of `get_sample_sheet_errors`:
register the library in `by_uuid`, validate its name and lane numbers, and
record its per-lane information. -/
def gatherLibrary (num_lanes : Int) (st : SheetMaps) (library : Library) :
    SheetMaps :=
  let st1 := { st with by_uuid := dassign library.sodar_uuid library st.by_uuid }
  let st2 :=
    if re_match_name library.name then st1
    else { st1 with
           result := addErr st1.result library.sodar_uuid "name" nameCharsMsg }
  let bad_lanes := badLaneNumbers num_lanes library
  let st3 :=
    if bad_lanes.isEmpty then st2
    else { st2 with
           result := setdefaultErr st2.result library.sodar_uuid "lane"
             [laneMsg bad_lanes] }
  library.lane_numbers.foldl (gatherLane library) st3

/-- The empty initial `SheetMaps` state. -/
def initMaps : SheetMaps := ⟨[], [], [], [], []⟩

/-- The whole first loop of `get_sample_sheet_errors`. -/
def gatherAll (num_lanes : Int) (libs : List Library) : SheetMaps :=
  libs.foldl (gatherLibrary num_lanes) initMaps

/-- The `bad_lanes` map of the name-uniqueness check: for every `(lane, name)`
group with more than one member, record the lane for every member. -/
def nameBadLanes (by_name : List ((Int × String) × List Library)) :
    List (Nat × List Int) :=
  by_name.foldl
    (fun bl kv =>
      if kv.2.length ≠ 1 then
        kv.2.foldl
          (fun bl library =>
            upsert library.sodar_uuid [] (fun ls => ls ++ [kv.1.1]) bl) bl
      else bl)
    []

/-- The `clashes` expression of the barcode-uniqueness check:
`(set(libraries.keys()) & set(other_libraries.keys())) - {library.sodar_uuid}`
where `other_libraries = by_barcode2[(lane, library.get_barcode_seq2())]`. -/
def clashesFor (st : SheetMaps) (libraries : List (Nat × Library)) (lane : Int)
    (library : Library) : List Nat :=
  let other_libraries :=
    (alookup (lane, library.get_barcode_seq2) st.by_barcode2).getD []
  (libraries.map Prod.fst).filter
    (fun u => decide (u ∈ other_libraries.map Prod.fst) && decide (u ≠ library.sodar_uuid))

/-- The `bad_lanes` map of the barcode-uniqueness check. -/
def barcodeBadLanes (st : SheetMaps) : List (Nat × List Int) :=
  st.by_barcode.foldl
    (fun bl kv =>
      kv.2.foldl
        (fun bl ul =>
          if (clashesFor st kv.2 kv.1.1 ul.2).isEmpty then bl
          else upsert ul.2.sodar_uuid [] (fun ls => ls ++ [kv.1.1]) bl)
        bl)
    []

/-- The second loop of `get_sample_sheet_errors`: report name-uniqueness
errors from the `bad_lanes` map. -/
def addNameErrors (st : SheetMaps) (result : ErrMap) : ErrMap :=
  (nameBadLanes st.by_name).foldl
    (fun result ul =>
      match alookup ul.1 st.by_uuid with
      | some library =>
        addErr result ul.1 "name" (nameUniqMsg library.name ul.2)
      | none => result)
    result

/-- The field keys flagged for a barcode collision: both fields when neither
sequence is set (truthy), otherwise exactly the set ones. -/
def barcodeKeys (library : Library) : List String :=
  if !(optTruthy library.get_barcode_seq) && !(optTruthy library.get_barcode_seq2) then
    ["barcode", "barcode2"]
  else
    (if optTruthy library.get_barcode_seq then ["barcode"] else [])
      ++ (if optTruthy library.get_barcode_seq2 then ["barcode2"] else [])

/-- The last loop of `get_sample_sheet_errors`: report barcode-uniqueness
errors from the `bad_lanes` map. -/
def addBarcodeErrors (st : SheetMaps) (result : ErrMap) : ErrMap :=
  (barcodeBadLanes st).foldl
    (fun result ul =>
      match alookup ul.1 st.by_uuid with
      | some library =>
        (barcodeKeys library).foldl
          (fun result key =>
            addErr result ul.1 key
              (barcodeUniqMsg library.get_barcode_seq library.get_barcode_seq2 ul.2))
          result
      | none => result)
    result

/-- `FlowCell.get_sample_sheet_errors` from `flowcells/models.py`. -/
def get_sample_sheet_errors (fc : FlowCell) : ErrMap :=
  let st := gatherAll fc.num_lanes fc.libraries
  addBarcodeErrors st (addNameErrors st st.result)

/-- Observation helper: the error list stored for one library and field. -/
def errorsFor (m : ErrMap) (u : Nat) (field : String) : Option (List String) :=
  (alookup u m).bind (alookup field)

/-- `set.add`: add a sequence to the expected set unless already present. -/
def setAdd (es : List String) (x : String) : List String :=
  if x ∈ es then es else es ++ [x]

/-- `if barcode: expected_seqs.add(barcode.sequence)
elif barcode_seq: expected_seqs.add(barcode_seq)` with Python truthiness;
an empty literal sequence contributes nothing. -/
def expectedAdd (barcode : Option BarcodeSetEntry) (barcode_seq : Option String)
    (es : List String) : List String :=
  match barcode with
  | some b => setAdd es b.sequence
  | none =>
    match barcode_seq with
    | some s => if s == "" then es else setAdd es s
    | none => es

/-- The per-library body of the expected-sequence collection in
`get_index_errors`: read 0 uses the first barcode slot, any other read the
second. -/
def expectedStep (index_read_no : Int) (es : List String) (library : Library) :
    List String :=
  expectedAdd (if index_read_no = 0 then library.barcode else library.barcode2)
    (if index_read_no = 0 then library.barcode_seq else library.barcode_seq2) es

/-- The `expected_seqs` set of `get_index_errors` for one histogram: the
sequences contributed by every library assigned to the histogram's lane. -/
def expectedSeqs (libs : List Library) (hist : LaneIndexHistogram) :
    List String :=
  libs.foldl
    (fun es library =>
      if hist.lane ∈ library.lane_numbers then
        expectedStep hist.index_read_no es library
      else es)
    []

/-- The inner loop of `get_index_errors` over one histogram's observed
sequences: skip all-`N` sequences, flag sequences missing from the expected
set. -/
def histErrors (libs : List Library) (hist : LaneIndexHistogram)
    (result : List ((Int × Int × String) × List String)) :
    List ((Int × Int × String) × List String) :=
  hist.histogram.foldl
    (fun result sc =>
      if sc.1.data.all (fun s => s == 'N') then result
      else if sc.1 ∈ expectedSeqs libs hist then result
      else
        dassign (hist.lane, hist.index_read_no, sc.1)
          [indexErrMsg sc.1 hist.lane hist.index_read_no] result)
    result

/-- `FlowCell.get_index_errors` from `flowcells/models.py`. -/
def get_index_errors (fc : FlowCell) :
    List ((Int × Int × String) × List String) :=
  fc.index_histograms.foldl
    (fun result hist => histErrors fc.libraries hist result)
    []

/-! ## Association-list lemmas -/

section AListLemmas

variable {α : Type u} {β : Type v} [DecidableEq α]

theorem alookup_upsert_self (k : α) (dflt : β) (f : β → β) (m : List (α × β)) :
    alookup k (upsert k dflt f m) = some (f ((alookup k m).getD dflt)) := by
  induction m with
  | nil => simp [alookup, upsert]
  | cons e m ih =>
    obtain ⟨k', v⟩ := e
    by_cases h : k' = k
    · subst h; simp [alookup, upsert]
    · simp [alookup, upsert, h, ih]

theorem alookup_upsert_ne (k k' : α) (h : k' ≠ k) (dflt : β) (f : β → β)
    (m : List (α × β)) : alookup k' (upsert k dflt f m) = alookup k' m := by
  induction m with
  | nil => simp [alookup, upsert, Ne.symm h]
  | cons e m ih =>
    obtain ⟨k0, v⟩ := e
    by_cases h0 : k0 = k
    · subst h0
      simp [alookup, upsert, Ne.symm h]
    · simp [alookup, upsert, h0, ih]

theorem alookup_dassign_self (k : α) (v : β) (m : List (α × β)) :
    alookup k (dassign k v m) = some v := by
  simp [dassign, alookup_upsert_self]

theorem alookup_dassign_ne (k k' : α) (h : k' ≠ k) (v : β) (m : List (α × β)) :
    alookup k' (dassign k v m) = alookup k' m := by
  simp [dassign, alookup_upsert_ne k k' h]

theorem alookup_eq_none_iff (k : α) (m : List (α × β)) :
    alookup k m = none ↔ k ∉ m.map Prod.fst := by
  induction m with
  | nil => simp [alookup]
  | cons e m ih =>
    obtain ⟨k0, v⟩ := e
    by_cases h0 : k0 = k
    · subst h0; simp [alookup]
    · simp [alookup, h0, ih, Ne.symm h0]

theorem alookup_isSome_iff (k : α) (m : List (α × β)) :
    (alookup k m).isSome = true ↔ k ∈ m.map Prod.fst := by
  rw [Option.isSome_iff_ne_none, Ne, alookup_eq_none_iff, not_not]

theorem map_fst_upsert (k : α) (dflt : β) (f : β → β) (m : List (α × β)) :
    (upsert k dflt f m).map Prod.fst =
      if k ∈ m.map Prod.fst then m.map Prod.fst else m.map Prod.fst ++ [k] := by
  induction m with
  | nil => simp [upsert]
  | cons e m ih =>
    obtain ⟨k0, v⟩ := e
    by_cases h0 : k0 = k
    · subst h0; simp [upsert]
    · simp only [upsert, if_neg h0, List.map_cons]
      rw [ih]
      by_cases hk : k ∈ m.map Prod.fst
      · simp [hk, h0, Ne.symm h0]
      · simp [hk, h0, Ne.symm h0]

theorem nodup_keys_upsert (k : α) (dflt : β) (f : β → β) (m : List (α × β))
    (hm : (m.map Prod.fst).Nodup) : ((upsert k dflt f m).map Prod.fst).Nodup := by
  rw [map_fst_upsert]
  by_cases hk : k ∈ m.map Prod.fst
  · simpa [hk]
  · simpa [hk] using List.Nodup.append hm (List.nodup_singleton k) (by simpa using hk)

theorem mem_iff_alookup (m : List (α × β)) (hm : (m.map Prod.fst).Nodup)
    (a : α) (b : β) : (a, b) ∈ m ↔ alookup a m = some b := by
  induction m with
  | nil => simp [alookup]
  | cons e m ih =>
    obtain ⟨k0, v⟩ := e
    simp only [List.map_cons, List.nodup_cons] at hm
    by_cases h0 : k0 = a
    · subst h0
      constructor
      · intro hmem
        rcases List.mem_cons.mp hmem with heq | hmem
        · rw [Prod.mk.injEq] at heq
          rw [show alookup k0 ((k0, v) :: m) = some v by simp [alookup], heq.2]
        · exact absurd (List.mem_map_of_mem Prod.fst hmem) hm.1
      · intro hl
        rw [show alookup k0 ((k0, v) :: m) = some v by simp [alookup],
          Option.some_inj] at hl
        subst hl
        exact List.mem_cons_self _ _
    · rw [show alookup a ((k0, v) :: m) = alookup a m by simp [alookup, h0]]
      constructor
      · intro hmem
        rcases List.mem_cons.mp hmem with heq | hmem
        · rw [Prod.mk.injEq] at heq
          exact absurd heq.1.symm h0
        · exact (ih hm.2).mp hmem
      · intro hl
        exact List.mem_cons_of_mem _ ((ih hm.2).mpr hl)

theorem fst_eq_of_mem_of_alookup {m : List (α × β)} {a : α} {b : β}
    (hmem : (a, b) ∈ m) : alookup a m ≠ none := by
  rw [Ne, alookup_eq_none_iff]
  intro hno
  exact hno (List.mem_map_of_mem Prod.fst hmem)

end AListLemmas

/-! ## Keyed-fold lemmas: folds of `upsert` over a stream of items -/

universe w

section KeyedFold

variable {α : Type u} {β : Type v} {γ : Type w} [DecidableEq α]

theorem alookup_upsertFold_some (key : β → α) (dflt : γ) (g : γ → β → γ)
    (ps : List β) (k : α) :
    ∀ (m : List (α × γ)) (c : γ), alookup k m = some c →
      alookup k (ps.foldl (fun m p => upsert (key p) dflt (fun x => g x p) m) m)
        = some ((ps.filter (fun p => key p = k)).foldl g c) := by
  induction ps with
  | nil => intro m c h; simpa using h
  | cons p ps ih =>
    intro m c h
    by_cases hp : key p = k
    · have h1 : alookup k (upsert (key p) dflt (fun x => g x p) m)
          = some (g c p) := by
        rw [hp, alookup_upsert_self, h]
        rfl
      rw [List.foldl_cons, ih _ _ h1, List.filter_cons,
        if_pos (decide_eq_true hp), List.foldl_cons]
    · have h1 : alookup k (upsert (key p) dflt (fun x => g x p) m)
          = some c := by
        rw [alookup_upsert_ne (key p) k (Ne.symm hp), h]
      rw [List.foldl_cons, ih _ _ h1, List.filter_cons,
        if_neg (by simpa using hp)]

theorem alookup_upsertFold_none (key : β → α) (dflt : γ) (g : γ → β → γ)
    (ps : List β) (k : α) :
    ∀ (m : List (α × γ)), alookup k m = none →
      alookup k (ps.foldl (fun m p => upsert (key p) dflt (fun x => g x p) m) m)
        = if (ps.filter (fun p => key p = k)).isEmpty then none
          else some ((ps.filter (fun p => key p = k)).foldl g dflt) := by
  induction ps with
  | nil => intro m h; simpa using h
  | cons p ps ih =>
    intro m h
    by_cases hp : key p = k
    · have h1 : alookup k (upsert (key p) dflt (fun x => g x p) m)
          = some (g dflt p) := by
        rw [hp, alookup_upsert_self, h]
        rfl
      rw [List.foldl_cons, alookup_upsertFold_some key dflt g ps k _ _ h1]
      simp [List.filter_cons, hp, List.foldl_cons]
    · have h1 : alookup k (upsert (key p) dflt (fun x => g x p) m) = none := by
        rw [alookup_upsert_ne (key p) k (Ne.symm hp), h]
      rw [List.foldl_cons, ih _ h1]
      simp [List.filter_cons, hp]

theorem nodup_keys_upsertFold (key : β → α) (dflt : γ) (f : β → γ → γ)
    (ps : List β) :
    ∀ (m : List (α × γ)), (m.map Prod.fst).Nodup →
      ((ps.foldl (fun m p => upsert (key p) dflt (f p) m) m).map Prod.fst).Nodup := by
  induction ps with
  | nil => intro m h; simpa using h
  | cons p ps ih =>
    intro m h
    exact ih _ (nodup_keys_upsert _ _ _ _ h)

theorem foldl_append_map (f : β → γ) :
    ∀ (ps : List β) (init : List γ),
      ps.foldl (fun ls p => ls ++ [f p]) init = init ++ ps.map f := by
  intro ps
  induction ps with
  | nil => simp
  | cons p ps ih =>
    intro init
    rw [List.foldl_cons, ih, List.map_cons]
    simp

theorem alookup_groupFold (key : β → α) (val : β → γ) (ps : List β) (k : α) :
    alookup k (ps.foldl (fun m p => upsert (key p) [] (fun ls => ls ++ [val p]) m) [])
      = if (ps.filter (fun p => key p = k)).isEmpty then none
        else some ((ps.filter (fun p => key p = k)).map val) := by
  have h := alookup_upsertFold_none key [] (fun ls p => ls ++ [val p]) ps k [] rfl
  rw [h, foldl_append_map val]
  simp

theorem mem_keys_groupFold (key : β → α) (val : β → γ) (ps : List β) (k : α) :
    k ∈ (ps.foldl (fun m p => upsert (key p) [] (fun ls => ls ++ [val p]) m) []).map Prod.fst
      ↔ ∃ p ∈ ps, key p = k := by
  constructor
  · intro hk
    by_contra hex
    have hfil : ps.filter (fun p => key p = k) = [] := by
      rw [List.filter_eq_nil_iff]
      intro p hp
      simp only [decide_eq_true_eq]
      exact fun hkey => hex ⟨p, hp, hkey⟩
    have hnone : alookup k
        (ps.foldl (fun m p => upsert (key p) [] (fun ls => ls ++ [val p]) m) []) = none := by
      rw [alookup_groupFold, hfil]
      simp
    rw [alookup_eq_none_iff] at hnone
    exact hnone hk
  · rintro ⟨p, hp, hkey⟩
    by_contra hk
    have hnone : alookup k
        (ps.foldl (fun m p => upsert (key p) [] (fun ls => ls ++ [val p]) m) []) = none :=
      (alookup_eq_none_iff _ _).mpr hk
    rw [alookup_groupFold] at hnone
    have hne : ¬ ((ps.filter (fun p => key p = k)).isEmpty = true) := by
      simp only [List.isEmpty_iff, List.filter_eq_nil_iff, decide_eq_true_eq]
      push_neg
      exact ⟨p, hp, hkey⟩
    rw [if_neg hne] at hnone
    exact Option.noConfusion hnone

end KeyedFold

/-! ## Projections of the first loop of `get_sample_sheet_errors` -/

/-- The stream of `(lane, library)` pairs visited by the nested loops of the
first phase (libraries in order, lanes in order, duplicates kept). -/
def nameOccs (libs : List Library) : List (Int × Library) :=
  libs.flatMap (fun lib => lib.lane_numbers.map (fun l => (l, lib)))

/-- The effect of one library on `result` during the first phase. -/
def libResultStep (num_lanes : Int) (r : ErrMap) (library : Library) : ErrMap :=
  let r1 :=
    if re_match_name library.name then r
    else addErr r library.sodar_uuid "name" nameCharsMsg
  if (badLaneNumbers num_lanes library).isEmpty then r1
  else setdefaultErr r1 library.sodar_uuid "lane"
    [laneMsg (badLaneNumbers num_lanes library)]

theorem gatherLanes_result (lib : Library) (lanes : List Int) :
    ∀ st : SheetMaps, (lanes.foldl (gatherLane lib) st).result = st.result := by
  induction lanes with
  | nil => intro st; rfl
  | cons l lanes ih => intro st; rw [List.foldl_cons, ih]; rfl

theorem gatherLanes_by_uuid (lib : Library) (lanes : List Int) :
    ∀ st : SheetMaps, (lanes.foldl (gatherLane lib) st).by_uuid = st.by_uuid := by
  induction lanes with
  | nil => intro st; rfl
  | cons l lanes ih => intro st; rw [List.foldl_cons, ih]; rfl

theorem gatherLanes_by_name (lib : Library) (lanes : List Int) :
    ∀ st : SheetMaps, (lanes.foldl (gatherLane lib) st).by_name
      = lanes.foldl
          (fun m l => upsert (l, lib.name) [] (fun ls => ls ++ [lib]) m)
          st.by_name := by
  induction lanes with
  | nil => intro st; rfl
  | cons l lanes ih => intro st; rw [List.foldl_cons, List.foldl_cons, ih]; rfl

theorem gatherLanes_by_barcode (lib : Library) (lanes : List Int) :
    ∀ st : SheetMaps, (lanes.foldl (gatherLane lib) st).by_barcode
      = lanes.foldl
          (fun m l => upsert (l, lib.get_barcode_seq) []
            (fun d => dassign lib.sodar_uuid lib d) m)
          st.by_barcode := by
  induction lanes with
  | nil => intro st; rfl
  | cons l lanes ih => intro st; rw [List.foldl_cons, List.foldl_cons, ih]; rfl

theorem gatherLanes_by_barcode2 (lib : Library) (lanes : List Int) :
    ∀ st : SheetMaps, (lanes.foldl (gatherLane lib) st).by_barcode2
      = lanes.foldl
          (fun m l => upsert (l, lib.get_barcode_seq2) []
            (fun d => dassign lib.sodar_uuid lib d) m)
          st.by_barcode2 := by
  induction lanes with
  | nil => intro st; rfl
  | cons l lanes ih => intro st; rw [List.foldl_cons, List.foldl_cons, ih]; rfl

theorem gatherLibrary_result (n : Int) (st : SheetMaps) (lib : Library) :
    (gatherLibrary n st lib).result = libResultStep n st.result lib := by
  unfold gatherLibrary libResultStep
  rw [gatherLanes_result]
  by_cases h1 : re_match_name lib.name <;>
    by_cases h2 : (badLaneNumbers n lib).isEmpty <;> simp [h1, h2]

theorem gatherLibrary_by_uuid (n : Int) (st : SheetMaps) (lib : Library) :
    (gatherLibrary n st lib).by_uuid = dassign lib.sodar_uuid lib st.by_uuid := by
  unfold gatherLibrary
  rw [gatherLanes_by_uuid]
  by_cases h1 : re_match_name lib.name <;>
    by_cases h2 : (badLaneNumbers n lib).isEmpty <;> simp [h1, h2]

theorem gatherLibrary_by_name (n : Int) (st : SheetMaps) (lib : Library) :
    (gatherLibrary n st lib).by_name
      = lib.lane_numbers.foldl
          (fun m l => upsert (l, lib.name) [] (fun ls => ls ++ [lib]) m)
          st.by_name := by
  unfold gatherLibrary
  rw [gatherLanes_by_name]
  by_cases h1 : re_match_name lib.name <;>
    by_cases h2 : (badLaneNumbers n lib).isEmpty <;> simp [h1, h2]

theorem gatherLibrary_by_barcode (n : Int) (st : SheetMaps) (lib : Library) :
    (gatherLibrary n st lib).by_barcode
      = lib.lane_numbers.foldl
          (fun m l => upsert (l, lib.get_barcode_seq) []
            (fun d => dassign lib.sodar_uuid lib d) m)
          st.by_barcode := by
  unfold gatherLibrary
  rw [gatherLanes_by_barcode]
  by_cases h1 : re_match_name lib.name <;>
    by_cases h2 : (badLaneNumbers n lib).isEmpty <;> simp [h1, h2]

theorem gatherLibrary_by_barcode2 (n : Int) (st : SheetMaps) (lib : Library) :
    (gatherLibrary n st lib).by_barcode2
      = lib.lane_numbers.foldl
          (fun m l => upsert (l, lib.get_barcode_seq2) []
            (fun d => dassign lib.sodar_uuid lib d) m)
          st.by_barcode2 := by
  unfold gatherLibrary
  rw [gatherLanes_by_barcode2]
  by_cases h1 : re_match_name lib.name <;>
    by_cases h2 : (badLaneNumbers n lib).isEmpty <;> simp [h1, h2]

theorem gatherAll_result (n : Int) (libs : List Library) :
    ∀ st : SheetMaps, (libs.foldl (gatherLibrary n) st).result
      = libs.foldl (libResultStep n) st.result := by
  induction libs with
  | nil => intro st; rfl
  | cons lib libs ih =>
    intro st
    rw [List.foldl_cons, List.foldl_cons, ih, gatherLibrary_result]

theorem gatherAll_by_uuid (n : Int) (libs : List Library) :
    ∀ st : SheetMaps, (libs.foldl (gatherLibrary n) st).by_uuid
      = libs.foldl (fun m lib => dassign lib.sodar_uuid lib m) st.by_uuid := by
  induction libs with
  | nil => intro st; rfl
  | cons lib libs ih =>
    intro st
    rw [List.foldl_cons, List.foldl_cons, ih, gatherLibrary_by_uuid]

theorem nameOccs_cons (lib : Library) (libs : List Library) :
    nameOccs (lib :: libs)
      = lib.lane_numbers.map (fun l => (l, lib)) ++ nameOccs libs := by
  simp [nameOccs]

theorem gatherAll_by_name (n : Int) (libs : List Library) :
    ∀ st : SheetMaps, (libs.foldl (gatherLibrary n) st).by_name
      = (nameOccs libs).foldl
          (fun m p => upsert (p.1, p.2.name) [] (fun ls => ls ++ [p.2]) m)
          st.by_name := by
  induction libs with
  | nil => intro st; rfl
  | cons lib libs ih =>
    intro st
    rw [List.foldl_cons, ih, nameOccs_cons, List.foldl_append,
      List.foldl_map, gatherLibrary_by_name]

theorem gatherAll_by_barcode (n : Int) (libs : List Library) :
    ∀ st : SheetMaps, (libs.foldl (gatherLibrary n) st).by_barcode
      = (nameOccs libs).foldl
          (fun m p => upsert (p.1, p.2.get_barcode_seq) []
            (fun d => dassign p.2.sodar_uuid p.2 d) m)
          st.by_barcode := by
  induction libs with
  | nil => intro st; rfl
  | cons lib libs ih =>
    intro st
    rw [List.foldl_cons, ih, nameOccs_cons, List.foldl_append,
      List.foldl_map, gatherLibrary_by_barcode]

theorem gatherAll_by_barcode2 (n : Int) (libs : List Library) :
    ∀ st : SheetMaps, (libs.foldl (gatherLibrary n) st).by_barcode2
      = (nameOccs libs).foldl
          (fun m p => upsert (p.1, p.2.get_barcode_seq2) []
            (fun d => dassign p.2.sodar_uuid p.2 d) m)
          st.by_barcode2 := by
  induction libs with
  | nil => intro st; rfl
  | cons lib libs ih =>
    intro st
    rw [List.foldl_cons, ih, nameOccs_cons, List.foldl_append,
      List.foldl_map, gatherLibrary_by_barcode2]

theorem mem_keys_upsertFold {α : Type u} {β : Type v} {γ : Type w}
    [DecidableEq α] (key : β → α) (dflt : γ) (g : γ → β → γ) (ps : List β) (k : α) :
    k ∈ (ps.foldl (fun m p => upsert (key p) dflt (fun x => g x p) m) []).map Prod.fst
      ↔ ∃ p ∈ ps, key p = k := by
  constructor
  · intro hk
    by_contra hex
    have hfil : ps.filter (fun p => key p = k) = [] := by
      rw [List.filter_eq_nil_iff]
      intro p hp
      simp only [decide_eq_true_eq]
      exact fun hkey => hex ⟨p, hp, hkey⟩
    have hnone : alookup k
        (ps.foldl (fun m p => upsert (key p) dflt (fun x => g x p) m) []) = none := by
      rw [alookup_upsertFold_none key dflt g ps k [] rfl, hfil]
      simp
    rw [alookup_eq_none_iff] at hnone
    exact hnone hk
  · rintro ⟨p, hp, hkey⟩
    by_contra hk
    have hnone : alookup k
        (ps.foldl (fun m p => upsert (key p) dflt (fun x => g x p) m) []) = none :=
      (alookup_eq_none_iff _ _).mpr hk
    rw [alookup_upsertFold_none key dflt g ps k [] rfl] at hnone
    have hne : ¬ ((ps.filter (fun p => key p = k)).isEmpty = true) := by
      simp only [List.isEmpty_iff, List.filter_eq_nil_iff, decide_eq_true_eq]
      push_neg
      exact ⟨p, hp, hkey⟩
    rw [if_neg hne] at hnone
    exact Option.noConfusion hnone

theorem mem_nameOccs (libs : List Library) (l : Int) (lib : Library) :
    (l, lib) ∈ nameOccs libs ↔ lib ∈ libs ∧ l ∈ lib.lane_numbers := by
  simp only [nameOccs, List.mem_flatMap, List.mem_map, Prod.mk.injEq]
  constructor
  · rintro ⟨a, ha, l0, hl0, rfl, rfl⟩
    exact ⟨ha, hl0⟩
  · rintro ⟨ha, hl⟩
    exact ⟨lib, ha, l, hl, rfl, rfl⟩

/-! ## Map contents for a library list with pairwise distinct UUIDs -/

/-- The `unique=True` constraint on `Library.sodar_uuid`. -/
def uuidsNodup (libs : List Library) : Prop :=
  (libs.map Library.sodar_uuid).Nodup

instance (libs : List Library) : Decidable (uuidsNodup libs) :=
  inferInstanceAs (Decidable ((libs.map Library.sodar_uuid).Nodup))

theorem uuid_inj {libs : List Library} (hn : uuidsNodup libs) {a b : Library}
    (ha : a ∈ libs) (hb : b ∈ libs) (h : a.sodar_uuid = b.sodar_uuid) : a = b :=
  List.inj_on_of_nodup_map hn ha hb h

theorem alookup_uuidFold_not_mem (libs : List Library) (u : Nat)
    (hu : u ∉ libs.map Library.sodar_uuid) :
    ∀ m0 : List (Nat × Library),
      alookup u (libs.foldl (fun m lib => dassign lib.sodar_uuid lib m) m0)
        = alookup u m0 := by
  induction libs with
  | nil => intro m0; rfl
  | cons lib libs ih =>
    simp only [List.map_cons, List.mem_cons, not_or] at hu
    intro m0
    rw [List.foldl_cons, ih hu.2, alookup_dassign_ne _ _ hu.1]

theorem alookup_by_uuid_self {libs : List Library} (hn : uuidsNodup libs)
    {lib : Library} (hmem : lib ∈ libs) :
    ∀ m0 : List (Nat × Library),
      alookup lib.sodar_uuid
        (libs.foldl (fun m lib => dassign lib.sodar_uuid lib m) m0) = some lib := by
  induction libs with
  | nil => exact absurd hmem (List.not_mem_nil lib)
  | cons lib0 libs ih =>
    intro m0
    rw [List.foldl_cons]
    rcases List.mem_cons.mp hmem with rfl | hmem0
    · have hu : lib.sodar_uuid ∉ libs.map Library.sodar_uuid := by
        have := hn
        simp only [uuidsNodup, List.map_cons, List.nodup_cons] at this
        exact this.1
      rw [alookup_uuidFold_not_mem libs lib.sodar_uuid hu, alookup_dassign_self]
    · have hn0 : uuidsNodup libs := by
        have := hn
        simp only [uuidsNodup, List.map_cons, List.nodup_cons] at this
        exact this.2
      exact ih hn0 hmem0 _

theorem nodup_keys_dassignFold (qs : List (Int × Library)) :
    ∀ d0 : List (Nat × Library), (d0.map Prod.fst).Nodup →
      ((qs.foldl (fun d q => dassign q.2.sodar_uuid q.2 d) d0).map Prod.fst).Nodup := by
  induction qs with
  | nil => intro d0 h; simpa using h
  | cons q qs ih =>
    intro d0 h
    exact ih _ (nodup_keys_upsert _ _ _ _ h)

theorem alookup_dassignFold_not_mem (qs : List (Int × Library)) (u : Nat)
    (hu : ∀ q ∈ qs, q.2.sodar_uuid ≠ u) :
    ∀ d0 : List (Nat × Library),
      alookup u (qs.foldl (fun d q => dassign q.2.sodar_uuid q.2 d) d0)
        = alookup u d0 := by
  induction qs with
  | nil => intro d0; rfl
  | cons q qs ih =>
    intro d0
    rw [List.foldl_cons, ih (fun p hp => hu p (List.mem_cons_of_mem q hp)),
      alookup_dassign_ne _ _ (Ne.symm (hu q (List.mem_cons_self q qs)))]

theorem alookup_dassignFold_some (qs : List (Int × Library)) (u : Nat)
    (b : Library) (hall : ∀ q ∈ qs, q.2.sodar_uuid = u → q.2 = b) :
    ∀ d0 : List (Nat × Library),
      (alookup u d0 = some b ∨ ∃ q ∈ qs, q.2.sodar_uuid = u) →
      alookup u (qs.foldl (fun d q => dassign q.2.sodar_uuid q.2 d) d0)
        = some b := by
  induction qs with
  | nil =>
    intro d0 h
    rcases h with h | ⟨q, hq, _⟩
    · exact h
    · exact absurd hq (List.not_mem_nil q)
  | cons q qs ih =>
    intro d0 h
    rw [List.foldl_cons]
    by_cases hq : q.2.sodar_uuid = u
    · have hb : q.2 = b := hall q (List.mem_cons_self q qs) hq
      apply ih (fun p hp => hall p (List.mem_cons_of_mem q hp)) _ (Or.inl _)
      rw [← hq, alookup_dassign_self, hb]
    · apply ih (fun p hp => hall p (List.mem_cons_of_mem q hp))
      rcases h with h | ⟨p, hp, hpu⟩
      · exact Or.inl (by rw [alookup_dassign_ne _ _ (Ne.symm hq)]; exact h)
      · rcases List.mem_cons.mp hp with rfl | hp0
        · exact absurd hpu hq
        · exact Or.inr ⟨p, hp0, hpu⟩

theorem alookup_dassignFold_inv (qs : List (Int × Library)) (u : Nat)
    (b : Library) :
    ∀ d0 : List (Nat × Library),
      alookup u (qs.foldl (fun d q => dassign q.2.sodar_uuid q.2 d) d0)
        = some b →
      (b.sodar_uuid = u ∧ b ∈ qs.map Prod.snd) ∨ alookup u d0 = some b := by
  induction qs with
  | nil => intro d0 h; exact Or.inr h
  | cons q qs ih =>
    intro d0 h
    rw [List.foldl_cons] at h
    rcases ih _ h with ⟨hb, hmem⟩ | hd
    · exact Or.inl ⟨hb, List.mem_cons_of_mem _ hmem⟩
    · by_cases hq : q.2.sodar_uuid = u
      · rw [← hq, alookup_dassign_self] at hd
        rw [Option.some_inj] at hd
        subst hd
        exact Or.inl ⟨hq, List.mem_cons_self _ _⟩
      · rw [alookup_dassign_ne _ _ (Ne.symm hq)] at hd
        exact Or.inr hd

/-- The barcode grouping maps, parametrized by the sequence projection
(`get_barcode_seq` for `by_barcode`, `get_barcode_seq2` for `by_barcode2`). -/
def seqGroups (sq : Library → Option String) (libs : List Library) :
    List ((Int × Option String) × List (Nat × Library)) :=
  (nameOccs libs).foldl
    (fun m p => upsert (p.1, sq p.2) []
      (fun d => dassign p.2.sodar_uuid p.2 d) m) []

theorem by_barcode_eq_seqGroups (n : Int) (libs : List Library) :
    (gatherAll n libs).by_barcode = seqGroups Library.get_barcode_seq libs := by
  rw [gatherAll, gatherAll_by_barcode]
  rfl

theorem by_barcode2_eq_seqGroups (n : Int) (libs : List Library) :
    (gatherAll n libs).by_barcode2 = seqGroups Library.get_barcode_seq2 libs := by
  rw [gatherAll, gatherAll_by_barcode2]
  rfl

theorem alookup_seqGroups (sq : Library → Option String) (libs : List Library)
    (l : Int) (s : Option String) :
    alookup (l, s) (seqGroups sq libs)
      = if ((nameOccs libs).filter (fun p => (p.1, sq p.2) = (l, s))).isEmpty
        then none
        else some (((nameOccs libs).filter (fun p => (p.1, sq p.2) = (l, s))).foldl
          (fun d q => dassign q.2.sodar_uuid q.2 d) []) := by
  have h := alookup_upsertFold_none (fun p : Int × Library => (p.1, sq p.2)) []
    (fun d q => dassign q.2.sodar_uuid q.2 d) (nameOccs libs) (l, s) [] rfl
  rw [seqGroups]
  exact h

theorem nodup_keys_seqGroups (sq : Library → Option String) (libs : List Library) :
    ((seqGroups sq libs).map Prod.fst).Nodup :=
  nodup_keys_upsertFold _ _ _ (nameOccs libs) [] List.nodup_nil

theorem mem_keys_seqGroups (sq : Library → Option String) (libs : List Library)
    (l : Int) (s : Option String) :
    (l, s) ∈ (seqGroups sq libs).map Prod.fst
      ↔ ∃ lib ∈ libs, l ∈ lib.lane_numbers ∧ sq lib = s := by
  rw [seqGroups, mem_keys_upsertFold]
  constructor
  · rintro ⟨p, hp, hkey⟩
    rw [Prod.mk.injEq] at hkey
    have hocc := (mem_nameOccs libs p.1 p.2).mp (by rwa [Prod.mk.eta])
    exact ⟨p.2, hocc.1, hkey.1 ▸ hocc.2, hkey.2⟩
  · rintro ⟨lib, hlib, hl, hs⟩
    exact ⟨(l, lib), (mem_nameOccs libs l lib).mpr ⟨hlib, hl⟩, by rw [hs]⟩

theorem nodup_keys_group_seqGroups (sq : Library → Option String)
    (libs : List Library) (l : Int) (s : Option String) :
    (((alookup (l, s) (seqGroups sq libs)).getD []).map Prod.fst).Nodup := by
  rw [alookup_seqGroups]
  by_cases h : ((nameOccs libs).filter (fun p => (p.1, sq p.2) = (l, s))).isEmpty
  · rw [if_pos h]
    simp
  · rw [if_neg h]
    exact nodup_keys_dassignFold _ [] List.nodup_nil

theorem mem_group_seqGroups (sq : Library → Option String) {libs : List Library}
    (hn : uuidsNodup libs) (l : Int) (s : Option String) (u : Nat) (b : Library) :
    (u, b) ∈ (alookup (l, s) (seqGroups sq libs)).getD []
      ↔ b ∈ libs ∧ b.sodar_uuid = u ∧ l ∈ b.lane_numbers ∧ sq b = s := by
  rw [alookup_seqGroups]
  by_cases h : ((nameOccs libs).filter (fun p => (p.1, sq p.2) = (l, s))).isEmpty
  · rw [if_pos h]
    simp only [Option.getD_none, List.not_mem_nil, false_iff, not_and]
    intro hb hu hl hs
    rw [List.isEmpty_iff, List.filter_eq_nil_iff] at h
    have hocc : (l, b) ∈ nameOccs libs := (mem_nameOccs libs l b).mpr ⟨hb, hl⟩
    have := h (l, b) hocc
    simp only [decide_eq_true_eq] at this
    exact this (by rw [hs])
  · rw [if_neg h, Option.getD_some]
    rw [mem_iff_alookup _ (nodup_keys_dassignFold _ [] List.nodup_nil)]
    constructor
    · intro hLk
      rcases alookup_dassignFold_inv _ _ _ _ hLk with ⟨hbu, hbmem⟩ | hnil
      · rw [List.mem_map] at hbmem
        obtain ⟨p, hp, hpb⟩ := hbmem
        rw [List.mem_filter] at hp
        have hkey := hp.2
        simp only [decide_eq_true_eq, Prod.mk.injEq] at hkey
        have hocc := (mem_nameOccs libs p.1 p.2).mp (by rw [Prod.mk.eta]; exact hp.1)
        refine ⟨hpb ▸ hocc.1, hbu, ?_, ?_⟩
        · rw [← hpb, ← hkey.1]; exact hocc.2
        · rw [← hpb, hkey.2]
      · exact absurd hnil (by simp [alookup])
    · rintro ⟨hb, hu, hl, hs⟩
      apply alookup_dassignFold_some
      · intro q hq hqu
        rw [List.mem_filter] at hq
        have hocc := (mem_nameOccs libs q.1 q.2).mp (by rw [Prod.mk.eta]; exact hq.1)
        exact uuid_inj hn hocc.1 hb (by rw [hqu, ← hu])
      · refine Or.inr ⟨(l, b), ?_, hu⟩
        rw [List.mem_filter]
        refine ⟨(mem_nameOccs libs l b).mpr ⟨hb, hl⟩, ?_⟩
        simp [hs]

/-! ## The `bad_lanes` maps of the second and third loops -/

/-- One step of accumulating a `(uuid, lane)` item into a `bad_lanes` map. -/
def groupStep (bl : List (Nat × List Int)) (q : Nat × Int) :
    List (Nat × List Int) :=
  upsert q.1 [] (fun ls => ls ++ [q.2]) bl

/-- The `(uuid, lane)` items appended by the name-uniqueness check, in
iteration order. -/
def nameStream (by_name : List ((Int × String) × List Library)) :
    List (Nat × Int) :=
  by_name.flatMap (fun kv =>
    if kv.2.length ≠ 1 then kv.2.map (fun lib => (lib.sodar_uuid, kv.1.1))
    else [])

theorem nameStream_cons (kv : (Int × String) × List Library)
    (rest : List ((Int × String) × List Library)) :
    nameStream (kv :: rest)
      = (if kv.2.length ≠ 1 then kv.2.map (fun lib => (lib.sodar_uuid, kv.1.1))
         else []) ++ nameStream rest := by
  simp [nameStream]

theorem nameBadLanes_eq_aux (by_name : List ((Int × String) × List Library)) :
    ∀ bl, by_name.foldl
        (fun bl kv =>
          if kv.2.length ≠ 1 then
            kv.2.foldl
              (fun bl library =>
                upsert library.sodar_uuid [] (fun ls => ls ++ [kv.1.1]) bl) bl
          else bl) bl
      = (nameStream by_name).foldl groupStep bl := by
  induction by_name with
  | nil => intro bl; rfl
  | cons kv rest ih =>
    intro bl
    rw [List.foldl_cons, ih, nameStream_cons, List.foldl_append]
    by_cases h : kv.2.length ≠ 1
    · rw [if_pos h, if_pos h, List.foldl_map]
      rfl
    · rw [if_neg h, if_neg h]
      rfl

theorem nameBadLanes_eq (by_name : List ((Int × String) × List Library)) :
    nameBadLanes by_name = (nameStream by_name).foldl groupStep [] :=
  nameBadLanes_eq_aux by_name []

/-- The entries of a barcode group that clash with some other library. -/
def clashFilter (st : SheetMaps) (kv : (Int × Option String) × List (Nat × Library)) :
    List (Nat × Library) :=
  kv.2.filter (fun ul => !(clashesFor st kv.2 kv.1.1 ul.2).isEmpty)

/-- The `(uuid, lane)` items appended by the barcode-uniqueness check, in
iteration order. -/
def barcodeStream (st : SheetMaps) : List (Nat × Int) :=
  st.by_barcode.flatMap
    (fun kv => (clashFilter st kv).map (fun ul => (ul.2.sodar_uuid, kv.1.1)))

theorem condFold_eq (c : Nat × Library → Bool) (k : Nat × Library → Nat)
    (v : Int) (l : List (Nat × Library)) :
    ∀ bl, l.foldl
        (fun bl x => if c x then bl else upsert (k x) [] (fun ls => ls ++ [v]) bl)
        bl
      = ((l.filter (fun x => !(c x))).map (fun x => (k x, v))).foldl groupStep bl := by
  induction l with
  | nil => intro bl; rfl
  | cons x l ih =>
    intro bl
    rw [List.foldl_cons, ih]
    by_cases h : c x
    · rw [if_pos h, List.filter_cons, if_neg (by simp [h])]
    · rw [if_neg h, List.filter_cons, if_pos (by simp [h]), List.map_cons,
        List.foldl_cons]
      rfl

theorem barcodeBadLanes_eq_aux (st : SheetMaps)
    (entries : List ((Int × Option String) × List (Nat × Library))) :
    ∀ bl, entries.foldl
        (fun bl kv =>
          kv.2.foldl
            (fun bl ul =>
              if (clashesFor st kv.2 kv.1.1 ul.2).isEmpty then bl
              else upsert ul.2.sodar_uuid [] (fun ls => ls ++ [kv.1.1]) bl)
            bl)
        bl
      = (entries.flatMap
          (fun kv => (clashFilter st kv).map (fun ul => (ul.2.sodar_uuid, kv.1.1)))).foldl
          groupStep bl := by
  induction entries with
  | nil => intro bl; rfl
  | cons kv rest ih =>
    intro bl
    rw [List.foldl_cons, ih, List.flatMap_cons, List.foldl_append]
    rw [condFold_eq (fun ul => (clashesFor st kv.2 kv.1.1 ul.2).isEmpty)
      (fun ul => ul.2.sodar_uuid) kv.1.1 kv.2 bl]
    rfl

theorem barcodeBadLanes_eq (st : SheetMaps) :
    barcodeBadLanes st = (barcodeStream st).foldl groupStep [] :=
  barcodeBadLanes_eq_aux st st.by_barcode []

theorem alookup_groupStepFold (stream : List (Nat × Int)) (u : Nat) :
    alookup u (stream.foldl groupStep [])
      = if (stream.filter (fun q => q.1 = u)).isEmpty then none
        else some ((stream.filter (fun q => q.1 = u)).map Prod.snd) :=
  alookup_groupFold Prod.fst Prod.snd stream u

theorem mem_keys_groupStepFold (stream : List (Nat × Int)) (u : Nat) :
    u ∈ (stream.foldl groupStep []).map Prod.fst ↔ ∃ q ∈ stream, q.1 = u :=
  mem_keys_groupFold Prod.fst Prod.snd stream u

theorem nodup_keys_groupStepFold (stream : List (Nat × Int)) :
    ((stream.foldl groupStep []).map Prod.fst).Nodup :=
  nodup_keys_upsertFold Prod.fst [] (fun q => fun ls => ls ++ [q.2]) stream []
    List.nodup_nil

/-! ## Characterizing the barcode-collision lanes -/

theorem entry_eq_of_fst_eq {α : Type u} {β : Type v} [DecidableEq α]
    {m : List (α × β)} (hm : (m.map Prod.fst).Nodup)
    {e1 e2 : α × β} (h1 : e1 ∈ m) (h2 : e2 ∈ m) (h : e1.1 = e2.1) : e1 = e2 := by
  have l1 : alookup e1.1 m = some e1.2 :=
    (mem_iff_alookup m hm e1.1 e1.2).mp (by rwa [Prod.mk.eta])
  have l2 : alookup e2.1 m = some e2.2 :=
    (mem_iff_alookup m hm e2.1 e2.2).mp (by rwa [Prod.mk.eta])
  rw [h, l2, Option.some_inj] at l1
  exact Prod.ext h l1.symm

/-- A library `L` collides with some other library on lane `l`: they share
the lane and both resolved sequences agree as exact values (the code keys
its groups by the exact `Option String`, so `none` and `some ""` differ). -/
def collidesAt (libs : List Library) (L : Library) (l : Int) : Prop :=
  ∃ B ∈ libs, B.sodar_uuid ≠ L.sodar_uuid ∧ l ∈ L.lane_numbers
    ∧ l ∈ B.lane_numbers ∧ B.get_barcode_seq = L.get_barcode_seq
    ∧ B.get_barcode_seq2 = L.get_barcode_seq2

theorem clashesFor_ne_nil_iff (n : Int) {libs : List Library}
    (hn : uuidsNodup libs) {L : Library} (hL : L ∈ libs) (l : Int)
    (hl : l ∈ L.lane_numbers) (grp : List (Nat × Library))
    (hgrp : alookup (l, L.get_barcode_seq)
      (seqGroups Library.get_barcode_seq libs) = some grp) :
    clashesFor (gatherAll n libs) grp l L ≠ [] ↔ collidesAt libs L l := by
  have hgrpD : grp = (alookup (l, L.get_barcode_seq)
      (seqGroups Library.get_barcode_seq libs)).getD [] := by
    rw [hgrp]; rfl
  unfold clashesFor
  rw [by_barcode2_eq_seqGroups n libs]
  rw [Ne, List.filter_eq_nil_iff]
  push_neg
  constructor
  · rintro ⟨u, humem, hpred⟩
    simp only [Bool.and_eq_true, decide_eq_true_eq] at hpred
    obtain ⟨e, he, heu⟩ := List.mem_map.mp humem
    obtain ⟨e2, he2, he2u⟩ := List.mem_map.mp hpred.1
    have hmem1 := (mem_group_seqGroups Library.get_barcode_seq hn l
      L.get_barcode_seq e.1 e.2).mp (by rw [Prod.mk.eta, ← hgrpD]; exact he)
    have hmem2 := (mem_group_seqGroups Library.get_barcode_seq2 hn l
      L.get_barcode_seq2 e2.1 e2.2).mp (by rwa [Prod.mk.eta])
    have hBeq : e.2 = e2.2 :=
      uuid_inj hn hmem1.1 hmem2.1 (by rw [hmem1.2.1, hmem2.2.1, heu, he2u])
    refine ⟨e.2, hmem1.1, ?_, hl, hmem1.2.2.1, hmem1.2.2.2, ?_⟩
    · rw [hmem1.2.1, heu]; exact hpred.2
    · rw [hBeq, hmem2.2.2.2]
  · rintro ⟨B, hB, hne, _, hBl, hseq1, hseq2⟩
    refine ⟨B.sodar_uuid, ?_, ?_⟩
    · have hmem : (B.sodar_uuid, B) ∈ grp := by
        rw [hgrpD]
        exact (mem_group_seqGroups Library.get_barcode_seq hn l L.get_barcode_seq
          B.sodar_uuid B).mpr ⟨hB, rfl, hBl, hseq1⟩
      exact List.mem_map_of_mem Prod.fst hmem
    · simp only [Bool.and_eq_true, decide_eq_true_eq]
      refine ⟨?_, hne⟩
      have hmem : (B.sodar_uuid, B) ∈ (alookup (l, L.get_barcode_seq2)
          (seqGroups Library.get_barcode_seq2 libs)).getD [] :=
        (mem_group_seqGroups Library.get_barcode_seq2 hn l L.get_barcode_seq2
          B.sodar_uuid B).mpr ⟨hB, rfl, hBl, hseq2⟩
      exact List.mem_map_of_mem Prod.fst hmem

theorem mem_barcodeStream (n : Int) {libs : List Library} (hn : uuidsNodup libs)
    {L : Library} (hL : L ∈ libs) (l : Int) :
    (L.sodar_uuid, l) ∈ barcodeStream (gatherAll n libs)
      ↔ collidesAt libs L l := by
  rw [barcodeStream, List.mem_flatMap]
  constructor
  · rintro ⟨kv, hkv, hx⟩
    obtain ⟨ul, hul, hulx⟩ := List.mem_map.mp hx
    rw [Prod.mk.injEq] at hulx
    rw [clashFilter, List.mem_filter] at hul
    have hkv2 : alookup kv.1 (gatherAll n libs).by_barcode = some kv.2 :=
      (mem_iff_alookup _ (by
        rw [by_barcode_eq_seqGroups n libs]
        exact nodup_keys_seqGroups _ _) kv.1 kv.2).mp (by rwa [Prod.mk.eta])
    have hulmem := (mem_group_seqGroups Library.get_barcode_seq hn kv.1.1 kv.1.2
      ul.1 ul.2).mp (by
        rw [Prod.mk.eta]
        rw [by_barcode_eq_seqGroups n libs] at hkv2
        rw [show alookup (kv.1.1, kv.1.2) (seqGroups Library.get_barcode_seq libs)
          = some kv.2 by rw [Prod.mk.eta]; exact hkv2]
        exact hul.1)
    have hulL : ul.2 = L := uuid_inj hn hulmem.1 hL hulx.1
    have hseq : kv.1.2 = L.get_barcode_seq := by
      rw [← hulmem.2.2.2, hulL]
    have hlane : kv.1.1 = l := hulx.2
    have hgrp : alookup (l, L.get_barcode_seq)
        (seqGroups Library.get_barcode_seq libs) = some kv.2 := by
      rw [by_barcode_eq_seqGroups n libs] at hkv2
      rw [← hlane, ← hseq, Prod.mk.eta]
      exact hkv2
    have hlL : l ∈ L.lane_numbers := by
      rw [← hulL, ← hlane]
      exact hulmem.2.2.1
    have hcl : clashesFor (gatherAll n libs) kv.2 kv.1.1 ul.2 ≠ [] := by
      intro hc
      rw [hc] at hul
      simpa using hul.2
    rw [hlane, hulL] at hcl
    exact (clashesFor_ne_nil_iff n hn hL l hlL kv.2 hgrp).mp hcl
  · intro hcol
    obtain ⟨B, hB, hne, hlL, hBl, hseq1, hseq2⟩ := hcol
    have hkey : (l, L.get_barcode_seq)
        ∈ (seqGroups Library.get_barcode_seq libs).map Prod.fst :=
      (mem_keys_seqGroups Library.get_barcode_seq libs l L.get_barcode_seq).mpr
        ⟨L, hL, hlL, rfl⟩
    have hsome : (alookup (l, L.get_barcode_seq)
        (seqGroups Library.get_barcode_seq libs)).isSome = true :=
      (alookup_isSome_iff _ _).mpr hkey
    obtain ⟨grp, hgrp⟩ := Option.isSome_iff_exists.mp hsome
    refine ⟨((l, L.get_barcode_seq), grp), ?_, ?_⟩
    · rw [← by_barcode_eq_seqGroups n libs] at hgrp
      exact (mem_iff_alookup _ (by
        rw [by_barcode_eq_seqGroups n libs]
        exact nodup_keys_seqGroups _ _) _ _).mpr hgrp
    · apply List.mem_map.mpr
      refine ⟨(L.sodar_uuid, L), ?_, rfl⟩
      rw [clashFilter, List.mem_filter]
      constructor
      · rw [show grp = (alookup (l, L.get_barcode_seq)
          (seqGroups Library.get_barcode_seq libs)).getD [] by rw [hgrp]; rfl]
        exact (mem_group_seqGroups Library.get_barcode_seq hn l L.get_barcode_seq
          L.sodar_uuid L).mpr ⟨hL, rfl, hlL, rfl⟩
      · have hcl : clashesFor (gatherAll n libs) grp l L ≠ [] :=
          (clashesFor_ne_nil_iff n hn hL l hlL grp hgrp).mpr
            ⟨B, hB, hne, hlL, hBl, hseq1, hseq2⟩
        simpa [List.isEmpty_iff] using hcl

theorem group_coherent (n : Int) {libs : List Library} (hn : uuidsNodup libs)
    {kv : (Int × Option String) × List (Nat × Library)}
    (hkv : kv ∈ (gatherAll n libs).by_barcode) :
    (kv.2.map Prod.fst).Nodup ∧ ∀ ul ∈ kv.2, ul.2.sodar_uuid = ul.1 := by
  have hkv2 : alookup kv.1 (gatherAll n libs).by_barcode = some kv.2 :=
    (mem_iff_alookup _ (by
      rw [by_barcode_eq_seqGroups n libs]
      exact nodup_keys_seqGroups _ _) kv.1 kv.2).mp (by rwa [Prod.mk.eta])
  have hgetD : kv.2 = (alookup (kv.1.1, kv.1.2)
      (seqGroups Library.get_barcode_seq libs)).getD [] := by
    rw [Prod.mk.eta]
    rw [by_barcode_eq_seqGroups n libs] at hkv2
    rw [hkv2]
    rfl
  constructor
  · rw [hgetD]
    exact nodup_keys_group_seqGroups _ _ _ _
  · intro ul hul
    have := (mem_group_seqGroups Library.get_barcode_seq hn kv.1.1 kv.1.2
      ul.1 ul.2).mp (by rw [Prod.mk.eta, ← hgetD]; exact hul)
    exact this.2.1

theorem length_filter_uuid_le_one {es : List (Nat × Library)}
    (hnd : (es.map Prod.fst).Nodup)
    (hco : ∀ e ∈ es, e.2.sodar_uuid = e.1) (p : (Nat × Library) → Bool)
    (u : Nat) :
    (es.filter (fun e => decide (e.2.sodar_uuid = u) && p e)).length ≤ 1 := by
  induction es with
  | nil => simp
  | cons e es ih =>
    simp only [List.map_cons, List.nodup_cons] at hnd
    rw [List.filter_cons]
    by_cases hpe : (decide (e.2.sodar_uuid = u) && p e) = true
    · rw [if_pos hpe]
      have heu : e.1 = u := by
        rw [← hco e (List.mem_cons_self e es)]
        exact of_decide_eq_true (Bool.and_elim_left hpe)
      have hnil : es.filter (fun x => decide (x.2.sodar_uuid = u) && p x) = [] := by
        rw [List.filter_eq_nil_iff]
        intro x hx hcx
        have hxu : x.1 = u := by
          rw [← hco x (List.mem_cons_of_mem e hx)]
          exact of_decide_eq_true (Bool.and_elim_left hcx)
        exact hnd.1 (by rw [heu, ← hxu]; exact List.mem_map_of_mem Prod.fst hx)
      rw [hnil]
      simp
    · rw [if_neg hpe]
      exact ih hnd.2 (fun x hx => hco x (List.mem_cons_of_mem e hx))

theorem nodup_barcode_lanes (n : Int) {libs : List Library}
    (hn : uuidsNodup libs) {L : Library} (hL : L ∈ libs) :
    (((barcodeStream (gatherAll n libs)).filter
        (fun q => q.1 = L.sodar_uuid)).map Prod.snd).Nodup := by
  rw [barcodeStream, List.filter_flatMap, List.map_flatMap]
  have hstep : ∀ kv : (Int × Option String) × List (Nat × Library),
      ((((clashFilter (gatherAll n libs) kv).map
          (fun ul => (ul.2.sodar_uuid, kv.1.1))).filter
        (fun q => q.1 = L.sodar_uuid)).map Prod.snd)
      = (kv.2.filter (fun ul => decide (ul.2.sodar_uuid = L.sodar_uuid)
          && !(clashesFor (gatherAll n libs) kv.2 kv.1.1 ul.2).isEmpty)).map
          (fun _ => kv.1.1) := by
    intro kv
    rw [List.filter_map, List.map_map, clashFilter, List.filter_filter]
    rfl
  have hflat : ((gatherAll n libs).by_barcode.flatMap
      (fun kv => (((clashFilter (gatherAll n libs) kv).map
          (fun ul => (ul.2.sodar_uuid, kv.1.1))).filter
        (fun q => q.1 = L.sodar_uuid)).map Prod.snd))
      = ((gatherAll n libs).by_barcode.map
          (fun kv => (kv.2.filter (fun ul => decide (ul.2.sodar_uuid = L.sodar_uuid)
            && !(clashesFor (gatherAll n libs) kv.2 kv.1.1 ul.2).isEmpty)).map
            (fun _ => kv.1.1))).flatten := by
    rw [List.flatMap]
    exact congrArg List.flatten (List.map_congr_left (fun kv _ => hstep kv))
  rw [hflat]
  rw [List.nodup_flatten]
  have hWlen : ∀ kv ∈ (gatherAll n libs).by_barcode,
      (kv.2.filter (fun ul => decide (ul.2.sodar_uuid = L.sodar_uuid)
        && !(clashesFor (gatherAll n libs) kv.2 kv.1.1 ul.2).isEmpty)).length ≤ 1 := by
    intro kv hkv
    obtain ⟨hnd, hco⟩ := group_coherent n hn hkv
    exact length_filter_uuid_le_one hnd hco _ _
  have hkeyOf : ∀ kv ∈ (gatherAll n libs).by_barcode,
      ∀ x ∈ (kv.2.filter (fun ul => decide (ul.2.sodar_uuid = L.sodar_uuid)
        && !(clashesFor (gatherAll n libs) kv.2 kv.1.1 ul.2).isEmpty)).map
          (fun _ => kv.1.1),
      x = kv.1.1 ∧ kv.1.2 = L.get_barcode_seq := by
    intro kv hkv x hx
    obtain ⟨ul, hul, hulx⟩ := List.mem_map.mp hx
    rw [List.mem_filter] at hul
    have huuid : ul.2.sodar_uuid = L.sodar_uuid :=
      of_decide_eq_true (Bool.and_elim_left hul.2)
    have hkv2 : alookup kv.1 (gatherAll n libs).by_barcode = some kv.2 :=
      (mem_iff_alookup _ (by
        rw [by_barcode_eq_seqGroups n libs]
        exact nodup_keys_seqGroups _ _) kv.1 kv.2).mp (by rwa [Prod.mk.eta])
    have hgetD : kv.2 = (alookup (kv.1.1, kv.1.2)
        (seqGroups Library.get_barcode_seq libs)).getD [] := by
      rw [Prod.mk.eta]
      rw [by_barcode_eq_seqGroups n libs] at hkv2
      rw [hkv2]
      rfl
    have hmem := (mem_group_seqGroups Library.get_barcode_seq hn kv.1.1 kv.1.2
      ul.1 ul.2).mp (by rw [Prod.mk.eta, ← hgetD]; exact hul.1)
    have hulL : ul.2 = L := uuid_inj hn hmem.1 hL huuid
    exact ⟨hulx.symm, by rw [← hmem.2.2.2, hulL]⟩
  constructor
  · intro ls hls
    obtain ⟨kv, hkv, hkvls⟩ := List.mem_map.mp hls
    rw [← hkvls, List.map_const']
    rw [List.nodup_replicate]
    exact hWlen kv hkv
  · rw [List.pairwise_map]
    have hpw : ((gatherAll n libs).by_barcode).Pairwise
        (fun a b => a.1 ≠ b.1) := by
      have hnd : (((gatherAll n libs).by_barcode).map Prod.fst).Nodup := by
        rw [by_barcode_eq_seqGroups n libs]
        exact nodup_keys_seqGroups _ _
      rw [List.Nodup, List.pairwise_map] at hnd
      exact hnd
    apply hpw.imp_of_mem
    intro a b ha hb hne
    intro x hxa hxb
    have hfa := hkeyOf a ha x hxa
    have hfb := hkeyOf b hb x hxb
    exact hne (by
      apply Prod.ext
      · rw [← hfa.1, ← hfb.1]
      · rw [hfa.2, hfb.2])

/-! ## Error-map lemmas -/

theorem errorsFor_addErr_self (m : ErrMap) (u : Nat) (field msg : String) :
    errorsFor (addErr m u field msg) u field
      = some ((errorsFor m u field).getD [] ++ [msg]) := by
  unfold errorsFor addErr
  rw [alookup_upsert_self]
  cases h : alookup u m with
  | none => simp [h, alookup_upsert_self, alookup]
  | some fm => simp [h, alookup_upsert_self]

theorem errorsFor_addErr_ne (m : ErrMap) {u u' : Nat} {field field' : String}
    (h : u ≠ u' ∨ field ≠ field') (msg : String) :
    errorsFor (addErr m u field msg) u' field' = errorsFor m u' field' := by
  unfold errorsFor addErr
  by_cases huu : u' = u
  · subst huu
    have hff : field ≠ field' := by
      rcases h with h | h
      · exact absurd rfl h
      · exact h
    rw [alookup_upsert_self]
    cases hm : alookup u' m with
    | none => simp [hm, alookup_upsert_ne field field' (Ne.symm hff), alookup, hff]
    | some fm => simp [hm, alookup_upsert_ne field field' (Ne.symm hff)]
  · rw [alookup_upsert_ne u u' huu]

theorem errorsFor_setdefaultErr_self (m : ErrMap) (u : Nat) (field : String)
    (msgs : List String) :
    errorsFor (setdefaultErr m u field msgs) u field
      = some ((errorsFor m u field).getD msgs) := by
  unfold errorsFor setdefaultErr
  rw [alookup_upsert_self]
  cases h : alookup u m with
  | none => simp [h, alookup_upsert_self, alookup]
  | some fm => simp [h, alookup_upsert_self]

theorem errorsFor_setdefaultErr_ne (m : ErrMap) {u u' : Nat}
    {field field' : String} (h : u ≠ u' ∨ field ≠ field') (msgs : List String) :
    errorsFor (setdefaultErr m u field msgs) u' field' = errorsFor m u' field' := by
  unfold errorsFor setdefaultErr
  by_cases huu : u' = u
  · subst huu
    have hff : field ≠ field' := by
      rcases h with h | h
      · exact absurd rfl h
      · exact h
    rw [alookup_upsert_self]
    cases hm : alookup u' m with
    | none => simp [hm, alookup_upsert_ne field field' (Ne.symm hff), alookup, hff]
    | some fm => simp [hm, alookup_upsert_ne field field' (Ne.symm hff)]
  · rw [alookup_upsert_ne u u' huu]

/-! ## The `result` map after the first loop -/

theorem errorsFor_libResultStep_name (n : Int) (r : ErrMap) (lib : Library) :
    errorsFor (libResultStep n r lib) lib.sodar_uuid "name"
      = if re_match_name lib.name then errorsFor r lib.sodar_uuid "name"
        else some ((errorsFor r lib.sodar_uuid "name").getD [] ++ [nameCharsMsg]) := by
  unfold libResultStep
  by_cases h1 : re_match_name lib.name <;>
    by_cases h2 : (badLaneNumbers n lib).isEmpty <;>
      simp [h1, h2, errorsFor_addErr_self,
        errorsFor_setdefaultErr_ne _ (Or.inr (by decide : ("lane" : String) ≠ "name"))]

theorem errorsFor_libResultStep_lane (n : Int) (r : ErrMap) (lib : Library) :
    errorsFor (libResultStep n r lib) lib.sodar_uuid "lane"
      = if (badLaneNumbers n lib).isEmpty then errorsFor r lib.sodar_uuid "lane"
        else some ((errorsFor r lib.sodar_uuid "lane").getD
          [laneMsg (badLaneNumbers n lib)]) := by
  unfold libResultStep
  by_cases h1 : re_match_name lib.name <;>
    by_cases h2 : (badLaneNumbers n lib).isEmpty <;>
      simp [h1, h2, errorsFor_setdefaultErr_self,
        errorsFor_addErr_ne _ (Or.inr (by decide : ("name" : String) ≠ "lane"))]

theorem errorsFor_libResultStep_ne (n : Int) (r : ErrMap) (lib : Library)
    {u : Nat} {field : String}
    (h : u ≠ lib.sodar_uuid ∨ (field ≠ "name" ∧ field ≠ "lane")) :
    errorsFor (libResultStep n r lib) u field = errorsFor r u field := by
  have hname : lib.sodar_uuid ≠ u ∨ ("name" : String) ≠ field := by
    rcases h with h | h
    · exact Or.inl (Ne.symm h)
    · exact Or.inr (Ne.symm h.1)
  have hlane : lib.sodar_uuid ≠ u ∨ ("lane" : String) ≠ field := by
    rcases h with h | h
    · exact Or.inl (Ne.symm h)
    · exact Or.inr (Ne.symm h.2)
  unfold libResultStep
  by_cases h1 : re_match_name lib.name <;>
    by_cases h2 : (badLaneNumbers n lib).isEmpty <;>
      simp [h1, h2, errorsFor_addErr_ne _ hname, errorsFor_setdefaultErr_ne _ hlane]

theorem errorsFor_resultFold_not_mem (n : Int) (libs : List Library) (u : Nat)
    (field : String) (hu : u ∉ libs.map Library.sodar_uuid) :
    ∀ r : ErrMap, errorsFor (libs.foldl (libResultStep n) r) u field
      = errorsFor r u field := by
  induction libs with
  | nil => intro r; rfl
  | cons lib libs ih =>
    simp only [List.map_cons, List.mem_cons, not_or] at hu
    intro r
    rw [List.foldl_cons, ih hu.2, errorsFor_libResultStep_ne n r lib (Or.inl hu.1)]

theorem errorsFor_phase1 (n : Int) {libs : List Library} (hn : uuidsNodup libs)
    {lib : Library} (hmem : lib ∈ libs) :
    ∀ r : ErrMap, (∀ f, errorsFor r lib.sodar_uuid f = none) →
      (errorsFor (libs.foldl (libResultStep n) r) lib.sodar_uuid "name"
         = if re_match_name lib.name then none else some [nameCharsMsg])
      ∧ (errorsFor (libs.foldl (libResultStep n) r) lib.sodar_uuid "lane"
         = if (badLaneNumbers n lib).isEmpty then none
           else some [laneMsg (badLaneNumbers n lib)])
      ∧ ∀ field, field ≠ "name" → field ≠ "lane" →
          errorsFor (libs.foldl (libResultStep n) r) lib.sodar_uuid field = none := by
  induction libs with
  | nil => exact absurd hmem (List.not_mem_nil lib)
  | cons lib0 libs ih =>
    intro r hr
    have hn0 : uuidsNodup libs := by
      have := hn
      simp only [uuidsNodup, List.map_cons, List.nodup_cons] at this
      exact this.2
    have hhead : lib0.sodar_uuid ∉ libs.map Library.sodar_uuid := by
      have := hn
      simp only [uuidsNodup, List.map_cons, List.nodup_cons] at this
      exact this.1
    rcases List.mem_cons.mp hmem with rfl | hmem0
    · rw [List.foldl_cons]
      have hpres : ∀ f, errorsFor (libs.foldl (libResultStep n)
          (libResultStep n r lib)) lib.sodar_uuid f
          = errorsFor (libResultStep n r lib) lib.sodar_uuid f :=
        fun f => errorsFor_resultFold_not_mem n libs lib.sodar_uuid f hhead _
      refine ⟨?_, ?_, ?_⟩
      · rw [hpres, errorsFor_libResultStep_name, hr "name"]
        by_cases h1 : re_match_name lib.name <;> simp [h1]
      · rw [hpres, errorsFor_libResultStep_lane, hr "lane"]
        by_cases h2 : (badLaneNumbers n lib).isEmpty <;> simp [h2]
      · intro field hf1 hf2
        rw [hpres, errorsFor_libResultStep_ne n r lib (Or.inr ⟨hf1, hf2⟩), hr field]
    · rw [List.foldl_cons]
      have hune : lib.sodar_uuid ≠ lib0.sodar_uuid := by
        intro hc
        exact hhead (hc ▸ List.mem_map_of_mem Library.sodar_uuid hmem0)
      refine ih hn0 hmem0 _ (fun f => ?_)
      rw [errorsFor_libResultStep_ne n r lib0 (Or.inl hune), hr f]

/-! ## Effects of the second and third loops on the error map -/

theorem nameFold_preserve (st : SheetMaps) (u : Nat) (field : String)
    (bad : List (Nat × List Int)) (hu : ∀ ul ∈ bad, ul.1 ≠ u) :
    ∀ r, errorsFor (bad.foldl (fun result ul =>
        match alookup ul.1 st.by_uuid with
        | some library => addErr result ul.1 "name" (nameUniqMsg library.name ul.2)
        | none => result) r) u field = errorsFor r u field := by
  induction bad with
  | nil => intro r; rfl
  | cons ul bad ih =>
    intro r
    rw [List.foldl_cons, ih (fun p hp => hu p (List.mem_cons_of_mem ul hp))]
    cases hL : alookup ul.1 st.by_uuid with
    | none => simp
    | some library =>
      simp only
      rw [errorsFor_addErr_ne _ (Or.inl (hu ul (List.mem_cons_self ul bad)))]

theorem nameFold_preserve_field (st : SheetMaps) (u : Nat) (field : String)
    (hf : field ≠ "name") (bad : List (Nat × List Int)) :
    ∀ r, errorsFor (bad.foldl (fun result ul =>
        match alookup ul.1 st.by_uuid with
        | some library => addErr result ul.1 "name" (nameUniqMsg library.name ul.2)
        | none => result) r) u field = errorsFor r u field := by
  induction bad with
  | nil => intro r; rfl
  | cons ul bad ih =>
    intro r
    rw [List.foldl_cons, ih]
    cases hL : alookup ul.1 st.by_uuid with
    | none => simp
    | some library =>
      simp only
      rw [errorsFor_addErr_ne _ (Or.inr (Ne.symm hf))]

theorem nameFold_self (st : SheetMaps) (u : Nat) (lanes : List Int)
    (L : Library) (bad : List (Nat × List Int))
    (hnd : (bad.map Prod.fst).Nodup) (hmem : (u, lanes) ∈ bad)
    (hL : alookup u st.by_uuid = some L) :
    ∀ r, errorsFor (bad.foldl (fun result ul =>
        match alookup ul.1 st.by_uuid with
        | some library => addErr result ul.1 "name" (nameUniqMsg library.name ul.2)
        | none => result) r) u "name"
      = some ((errorsFor r u "name").getD [] ++ [nameUniqMsg L.name lanes]) := by
  induction bad with
  | nil => exact absurd hmem (List.not_mem_nil _)
  | cons ul bad ih =>
    intro r
    simp only [List.map_cons, List.nodup_cons] at hnd
    by_cases hu : ul.1 = u
    · have hul : ul = (u, lanes) := by
        rcases List.mem_cons.mp hmem with h | h
        · exact h.symm
        · refine absurd ?_ hnd.1
          rw [hu]
          simpa using List.mem_map_of_mem Prod.fst h
      subst hul
      rw [List.foldl_cons]
      have hrest : ∀ p ∈ bad, p.1 ≠ u := by
        intro p hp hc
        refine absurd ?_ hnd.1
        show u ∈ bad.map Prod.fst
        rw [← hc]
        exact List.mem_map_of_mem Prod.fst hp
      rw [nameFold_preserve st u "name" bad hrest]
      rw [hL]
      simp only
      rw [errorsFor_addErr_self]
    · rw [List.foldl_cons]
      have hmem0 : (u, lanes) ∈ bad := by
        rcases List.mem_cons.mp hmem with h | h
        · exact absurd (by rw [← h] : ul.1 = u) hu
        · exact h
      rw [ih hnd.2 hmem0]
      cases hL0 : alookup ul.1 st.by_uuid with
      | none => simp
      | some library =>
        simp only
        rw [errorsFor_addErr_ne _ (Or.inl hu)]

theorem barcodeKeys_subset (L : Library) :
    ∀ k ∈ barcodeKeys L, k = "barcode" ∨ k = "barcode2" := by
  intro k hk
  unfold barcodeKeys at hk
  by_cases h1 : optTruthy L.get_barcode_seq <;>
    by_cases h2 : optTruthy L.get_barcode_seq2 <;>
      simp [h1, h2] at hk <;> tauto

theorem barcodeKeys_nodup (L : Library) : (barcodeKeys L).Nodup := by
  unfold barcodeKeys
  by_cases h1 : optTruthy L.get_barcode_seq <;>
    by_cases h2 : optTruthy L.get_barcode_seq2 <;> simp [h1, h2]

theorem keysFold_self (u : Nat) (msg : String) (keys : List String)
    (hnd : keys.Nodup) (field : String) :
    ∀ r, errorsFor (keys.foldl (fun result key => addErr result u key msg) r) u field
      = if field ∈ keys then some ((errorsFor r u field).getD [] ++ [msg])
        else errorsFor r u field := by
  induction keys with
  | nil => intro r; simp
  | cons k keys ih =>
    intro r
    simp only [List.nodup_cons] at hnd
    rw [List.foldl_cons]
    by_cases hfk : field = k
    · subst hfk
      rw [ih hnd.2, if_neg hnd.1, errorsFor_addErr_self,
        if_pos (List.mem_cons_self field keys)]
    · rw [ih hnd.2, errorsFor_addErr_ne _ (Or.inr (Ne.symm hfk))]
      by_cases hfm : field ∈ keys
      · rw [if_pos hfm, if_pos (List.mem_cons_of_mem k hfm)]
      · rw [if_neg hfm, if_neg (by simp [hfk, hfm])]

theorem keysFold_preserve (u u' : Nat) (msg : String) (keys : List String)
    (hne : u ≠ u') (field : String) :
    ∀ r, errorsFor (keys.foldl (fun result key => addErr result u key msg) r) u' field
      = errorsFor r u' field := by
  induction keys with
  | nil => intro r; rfl
  | cons k keys ih =>
    intro r
    rw [List.foldl_cons, ih, errorsFor_addErr_ne _ (Or.inl hne)]

theorem barcodeFold_preserve (st : SheetMaps) (u : Nat) (field : String)
    (bad : List (Nat × List Int)) (hu : ∀ ul ∈ bad, ul.1 ≠ u) :
    ∀ r, errorsFor (bad.foldl (fun result ul =>
        match alookup ul.1 st.by_uuid with
        | some library => (barcodeKeys library).foldl
            (fun result key => addErr result ul.1 key
              (barcodeUniqMsg library.get_barcode_seq library.get_barcode_seq2 ul.2))
            result
        | none => result) r) u field = errorsFor r u field := by
  induction bad with
  | nil => intro r; rfl
  | cons ul bad ih =>
    intro r
    rw [List.foldl_cons, ih (fun p hp => hu p (List.mem_cons_of_mem ul hp))]
    cases hL : alookup ul.1 st.by_uuid with
    | none => simp
    | some library =>
      simp only
      rw [keysFold_preserve ul.1 u _ _ (hu ul (List.mem_cons_self ul bad))]

theorem barcodeFold_preserve_field (st : SheetMaps) (u : Nat) (field : String)
    (hf1 : field ≠ "barcode") (hf2 : field ≠ "barcode2")
    (bad : List (Nat × List Int)) :
    ∀ r, errorsFor (bad.foldl (fun result ul =>
        match alookup ul.1 st.by_uuid with
        | some library => (barcodeKeys library).foldl
            (fun result key => addErr result ul.1 key
              (barcodeUniqMsg library.get_barcode_seq library.get_barcode_seq2 ul.2))
            result
        | none => result) r) u field = errorsFor r u field := by
  induction bad with
  | nil => intro r; rfl
  | cons ul bad ih =>
    intro r
    rw [List.foldl_cons, ih]
    cases hL : alookup ul.1 st.by_uuid with
    | none => simp
    | some library =>
      simp only
      by_cases huu : ul.1 = u
      · subst huu
        rw [keysFold_self ul.1 _ _ (barcodeKeys_nodup library) field]
        rw [if_neg (fun hc => ?_)]
        rcases barcodeKeys_subset library field hc with h | h
        · exact hf1 h
        · exact hf2 h
      · rw [keysFold_preserve ul.1 u _ _ huu]

theorem barcodeFold_self (st : SheetMaps) (u : Nat) (lanes : List Int)
    (L : Library) (bad : List (Nat × List Int))
    (hnd : (bad.map Prod.fst).Nodup) (hmem : (u, lanes) ∈ bad)
    (hL : alookup u st.by_uuid = some L) (field : String) :
    ∀ r, errorsFor (bad.foldl (fun result ul =>
        match alookup ul.1 st.by_uuid with
        | some library => (barcodeKeys library).foldl
            (fun result key => addErr result ul.1 key
              (barcodeUniqMsg library.get_barcode_seq library.get_barcode_seq2 ul.2))
            result
        | none => result) r) u field
      = if field ∈ barcodeKeys L then
          some ((errorsFor r u field).getD []
            ++ [barcodeUniqMsg L.get_barcode_seq L.get_barcode_seq2 lanes])
        else errorsFor r u field := by
  induction bad with
  | nil => exact absurd hmem (List.not_mem_nil _)
  | cons ul bad ih =>
    intro r
    simp only [List.map_cons, List.nodup_cons] at hnd
    by_cases hu : ul.1 = u
    · have hul : ul = (u, lanes) := by
        rcases List.mem_cons.mp hmem with h | h
        · exact h.symm
        · refine absurd ?_ hnd.1
          rw [hu]
          simpa using List.mem_map_of_mem Prod.fst h
      subst hul
      rw [List.foldl_cons]
      have hrest : ∀ p ∈ bad, p.1 ≠ u := by
        intro p hp hc
        refine absurd ?_ hnd.1
        show u ∈ bad.map Prod.fst
        rw [← hc]
        exact List.mem_map_of_mem Prod.fst hp
      rw [barcodeFold_preserve st u field bad hrest]
      rw [hL]
      simp only
      rw [keysFold_self u _ _ (barcodeKeys_nodup L) field]
    · rw [List.foldl_cons]
      have hmem0 : (u, lanes) ∈ bad := by
        rcases List.mem_cons.mp hmem with h | h
        · exact absurd (by rw [← h] : ul.1 = u) hu
        · exact h
      rw [ih hnd.2 hmem0]
      cases hL0 : alookup ul.1 st.by_uuid with
      | none => simp
      | some library =>
        simp only
        rw [keysFold_preserve ul.1 u _ _ hu]

/-! ## Master characterizations of `get_sample_sheet_errors` -/

theorem sheet_errors_def (fc : FlowCell) :
    get_sample_sheet_errors fc
      = addBarcodeErrors (gatherAll fc.num_lanes fc.libraries)
          (addNameErrors (gatherAll fc.num_lanes fc.libraries)
            (gatherAll fc.num_lanes fc.libraries).result) := rfl

theorem alookup_gather_by_uuid (n : Int) {libs : List Library}
    (hn : uuidsNodup libs) {lib : Library} (hmem : lib ∈ libs) :
    alookup lib.sodar_uuid (gatherAll n libs).by_uuid = some lib := by
  rw [gatherAll, gatherAll_by_uuid]
  exact alookup_by_uuid_self hn hmem []

theorem gather_result_eq (n : Int) (libs : List Library) :
    (gatherAll n libs).result = libs.foldl (libResultStep n) [] := by
  rw [gatherAll, gatherAll_result]
  rfl

theorem not_mem_keys_forall {bad : List (Nat × List Int)} {u : Nat}
    (h : alookup u bad = none) : ∀ ul ∈ bad, ul.1 ≠ u := by
  rw [alookup_eq_none_iff] at h
  intro ul hul hc
  exact h (hc ▸ List.mem_map_of_mem Prod.fst hul)

theorem sheet_lane_master (fc : FlowCell) (hn : uuidsNodup fc.libraries)
    {lib : Library} (hmem : lib ∈ fc.libraries) :
    errorsFor (get_sample_sheet_errors fc) lib.sodar_uuid "lane"
      = if (badLaneNumbers fc.num_lanes lib).isEmpty then none
        else some [laneMsg (badLaneNumbers fc.num_lanes lib)] := by
  rw [sheet_errors_def]
  unfold addBarcodeErrors
  rw [barcodeFold_preserve_field _ _ _ (by decide) (by decide) _]
  unfold addNameErrors
  rw [nameFold_preserve_field _ _ _ (by decide) _]
  rw [gather_result_eq]
  exact (errorsFor_phase1 fc.num_lanes hn hmem [] (fun f => rfl)).2.1

theorem sheet_name_master_none (fc : FlowCell) (hn : uuidsNodup fc.libraries)
    {lib : Library} (hmem : lib ∈ fc.libraries)
    (hno : alookup lib.sodar_uuid
      (nameBadLanes (gatherAll fc.num_lanes fc.libraries).by_name) = none) :
    errorsFor (get_sample_sheet_errors fc) lib.sodar_uuid "name"
      = if re_match_name lib.name then none else some [nameCharsMsg] := by
  rw [sheet_errors_def]
  unfold addBarcodeErrors
  rw [barcodeFold_preserve_field _ _ _ (by decide) (by decide) _]
  unfold addNameErrors
  rw [nameFold_preserve _ _ _ _ (not_mem_keys_forall hno)]
  rw [gather_result_eq]
  exact (errorsFor_phase1 fc.num_lanes hn hmem [] (fun f => rfl)).1

theorem sheet_name_master_some (fc : FlowCell) (hn : uuidsNodup fc.libraries)
    {lib : Library} (hmem : lib ∈ fc.libraries) {lanes : List Int}
    (hsome : alookup lib.sodar_uuid
      (nameBadLanes (gatherAll fc.num_lanes fc.libraries).by_name) = some lanes) :
    errorsFor (get_sample_sheet_errors fc) lib.sodar_uuid "name"
      = some ((if re_match_name lib.name then [] else [nameCharsMsg])
          ++ [nameUniqMsg lib.name lanes]) := by
  rw [sheet_errors_def]
  unfold addBarcodeErrors
  rw [barcodeFold_preserve_field _ _ _ (by decide) (by decide) _]
  unfold addNameErrors
  have hnd : ((nameBadLanes (gatherAll fc.num_lanes fc.libraries).by_name).map
      Prod.fst).Nodup := by
    rw [nameBadLanes_eq]
    exact nodup_keys_groupStepFold _
  have hmembad : (lib.sodar_uuid, lanes)
      ∈ nameBadLanes (gatherAll fc.num_lanes fc.libraries).by_name :=
    (mem_iff_alookup _ hnd _ _).mpr hsome
  rw [nameFold_self _ _ _ _ _ hnd hmembad (alookup_gather_by_uuid _ hn hmem)]
  rw [gather_result_eq]
  have h := (errorsFor_phase1 fc.num_lanes hn hmem [] (fun f => rfl)).1
  rw [h]
  by_cases h1 : re_match_name lib.name <;> simp [h1]

theorem sheet_barcode_master_none (fc : FlowCell) (hn : uuidsNodup fc.libraries)
    {lib : Library} (hmem : lib ∈ fc.libraries)
    (hno : alookup lib.sodar_uuid
      (barcodeBadLanes (gatherAll fc.num_lanes fc.libraries)) = none)
    (field : String) (hf1 : field ≠ "name") (hf2 : field ≠ "lane") :
    errorsFor (get_sample_sheet_errors fc) lib.sodar_uuid field = none := by
  rw [sheet_errors_def]
  unfold addBarcodeErrors
  rw [barcodeFold_preserve _ _ _ _ (not_mem_keys_forall hno)]
  unfold addNameErrors
  rw [nameFold_preserve_field _ _ _ hf1 _]
  rw [gather_result_eq]
  exact (errorsFor_phase1 fc.num_lanes hn hmem [] (fun f => rfl)).2.2 field hf1 hf2

theorem sheet_barcode_master_some (fc : FlowCell) (hn : uuidsNodup fc.libraries)
    {lib : Library} (hmem : lib ∈ fc.libraries) {lanes : List Int}
    (hsome : alookup lib.sodar_uuid
      (barcodeBadLanes (gatherAll fc.num_lanes fc.libraries)) = some lanes)
    (field : String) (hf1 : field ≠ "name") (hf2 : field ≠ "lane") :
    errorsFor (get_sample_sheet_errors fc) lib.sodar_uuid field
      = if field ∈ barcodeKeys lib then
          some [barcodeUniqMsg lib.get_barcode_seq lib.get_barcode_seq2 lanes]
        else none := by
  rw [sheet_errors_def]
  unfold addBarcodeErrors
  have hnd : ((barcodeBadLanes (gatherAll fc.num_lanes fc.libraries)).map
      Prod.fst).Nodup := by
    rw [barcodeBadLanes_eq]
    exact nodup_keys_groupStepFold _
  have hmembad : (lib.sodar_uuid, lanes)
      ∈ barcodeBadLanes (gatherAll fc.num_lanes fc.libraries) :=
    (mem_iff_alookup _ hnd _ _).mpr hsome
  rw [barcodeFold_self _ _ _ _ _ hnd hmembad
    (alookup_gather_by_uuid _ hn hmem) field]
  have hpre : errorsFor (addNameErrors (gatherAll fc.num_lanes fc.libraries)
      (gatherAll fc.num_lanes fc.libraries).result) lib.sodar_uuid field = none := by
    unfold addNameErrors
    rw [nameFold_preserve_field _ _ _ hf1 _]
    rw [gather_result_eq]
    exact (errorsFor_phase1 fc.num_lanes hn hmem [] (fun f => rfl)).2.2 field hf1 hf2
  rw [hpre]
  by_cases hk : field ∈ barcodeKeys lib <;> simp [hk]

/-- The collision-lane list stored for a library in `bad_lanes`, as a lookup:
either absent (no collisions) or the duplicate-free list of exactly the
offending lanes. -/
theorem barcode_badLanes_lookup (n : Int) {libs : List Library}
    (hn : uuidsNodup libs) {lib : Library} (hmem : lib ∈ libs) :
    (alookup lib.sodar_uuid (barcodeBadLanes (gatherAll n libs)) = none
      ∧ ∀ l, ¬ collidesAt libs lib l)
    ∨ ∃ lanes, alookup lib.sodar_uuid (barcodeBadLanes (gatherAll n libs))
        = some lanes
      ∧ lanes.Nodup ∧ lanes ≠ [] ∧ ∀ l, l ∈ lanes ↔ collidesAt libs lib l := by
  rw [barcodeBadLanes_eq, alookup_groupStepFold]
  have hvs : ∀ l, l ∈ ((barcodeStream (gatherAll n libs)).filter
      (fun q => q.1 = lib.sodar_uuid)).map Prod.snd ↔ collidesAt libs lib l := by
    intro l
    rw [← mem_barcodeStream n hn hmem l]
    constructor
    · intro hl
      obtain ⟨q, hq, hql⟩ := List.mem_map.mp hl
      rw [List.mem_filter] at hq
      have hq1 : q.1 = lib.sodar_uuid := by simpa using hq.2
      rw [show (lib.sodar_uuid, l) = q by rw [← hq1, ← hql, Prod.mk.eta]]
      exact hq.1
    · intro hq
      apply List.mem_map.mpr
      refine ⟨(lib.sodar_uuid, l), ?_, rfl⟩
      rw [List.mem_filter]
      exact ⟨hq, by simp⟩
  by_cases hE : ((barcodeStream (gatherAll n libs)).filter
      (fun q => q.1 = lib.sodar_uuid)).isEmpty
  · rw [if_pos hE]
    refine Or.inl ⟨rfl, fun l hl => ?_⟩
    rw [List.isEmpty_iff] at hE
    have := (hvs l).mpr hl
    rw [hE] at this
    simp at this
  · rw [if_neg hE]
    refine Or.inr ⟨_, rfl, nodup_barcode_lanes n hn hmem, ?_, hvs⟩
    rw [List.isEmpty_iff] at hE
    simp only [Ne, List.map_eq_nil_iff]
    exact hE

theorem mem_insertSorted (x a : Int) (l : List Int) :
    a ∈ insertSorted x l ↔ a = x ∨ a ∈ l := by
  induction l with
  | nil => simp [insertSorted]
  | cons y ys ih =>
    rw [insertSorted]
    by_cases h : x ≤ y
    · rw [if_pos h]
      simp
    · rw [if_neg h]
      simp only [List.mem_cons, ih]
      tauto

theorem mem_sortInts (a : Int) (l : List Int) : a ∈ sortInts l ↔ a ∈ l := by
  induction l with
  | nil => simp [sortInts]
  | cons x xs ih =>
    rw [sortInts, mem_insertSorted, ih]
    simp

theorem mem_badLaneNumbers (n : Int) (lib : Library) (l : Int) :
    l ∈ badLaneNumbers n lib ↔ l ∈ lib.lane_numbers ∧ (l < 1 ∨ l > n) := by
  rw [badLaneNumbers, mem_sortInts, List.mem_filter]
  simp

theorem badLaneNumbers_isEmpty (n : Int) (lib : Library) :
    (badLaneNumbers n lib).isEmpty
      ↔ ¬ ∃ no ∈ lib.lane_numbers, no < 1 ∨ no > n := by
  rw [List.isEmpty_iff, List.eq_nil_iff_forall_not_mem]
  constructor
  · rintro h ⟨no, hmem, hbad⟩
    exact h no ((mem_badLaneNumbers n lib no).mpr ⟨hmem, hbad⟩)
  · intro h no hno
    rw [mem_badLaneNumbers] at hno
    exact h ⟨no, hno.1, hno.2⟩

/-! ## The `by_name` grouping map -/

theorem alookup_by_name_groups (n : Int) (libs : List Library) (l : Int)
    (nm : String) :
    alookup (l, nm) (gatherAll n libs).by_name
      = if ((nameOccs libs).filter (fun p => (p.1, p.2.name) = (l, nm))).isEmpty
        then none
        else some (((nameOccs libs).filter
          (fun p => (p.1, p.2.name) = (l, nm))).map Prod.snd) := by
  rw [gatherAll, gatherAll_by_name]
  exact alookup_groupFold (fun p : Int × Library => (p.1, p.2.name)) Prod.snd
    (nameOccs libs) (l, nm)

theorem mem_by_name_group (n : Int) (libs : List Library) (l : Int)
    (nm : String) (b : Library) :
    b ∈ (alookup (l, nm) (gatherAll n libs).by_name).getD []
      ↔ b ∈ libs ∧ l ∈ b.lane_numbers ∧ b.name = nm := by
  rw [alookup_by_name_groups]
  by_cases h : ((nameOccs libs).filter
      (fun p => (p.1, p.2.name) = (l, nm))).isEmpty
  · rw [if_pos h]
    simp only [Option.getD_none, List.not_mem_nil, false_iff, not_and]
    intro hb hl hnm
    rw [List.isEmpty_iff, List.filter_eq_nil_iff] at h
    have hocc : (l, b) ∈ nameOccs libs := (mem_nameOccs libs l b).mpr ⟨hb, hl⟩
    have := h (l, b) hocc
    simp only [decide_eq_true_eq] at this
    exact this (by rw [hnm])
  · rw [if_neg h, Option.getD_some]
    constructor
    · intro hb
      obtain ⟨p, hp, hpb⟩ := List.mem_map.mp hb
      rw [List.mem_filter] at hp
      have hkey := hp.2
      simp only [decide_eq_true_eq, Prod.mk.injEq] at hkey
      have hocc := (mem_nameOccs libs p.1 p.2).mp (by rw [Prod.mk.eta]; exact hp.1)
      refine ⟨hpb ▸ hocc.1, ?_, ?_⟩
      · rw [← hpb, ← hkey.1]; exact hocc.2
      · rw [← hpb, hkey.2]
    · rintro ⟨hb, hl, hnm⟩
      apply List.mem_map.mpr
      refine ⟨(l, b), ?_, rfl⟩
      rw [List.mem_filter]
      exact ⟨(mem_nameOccs libs l b).mpr ⟨hb, hl⟩, by simp [hnm]⟩

theorem nodup_keys_by_name (n : Int) (libs : List Library) :
    ((gatherAll n libs).by_name.map Prod.fst).Nodup := by
  rw [gatherAll, gatherAll_by_name]
  exact nodup_keys_upsertFold (fun p : Int × Library => (p.1, p.2.name)) []
    (fun p => fun ls => ls ++ [p.2]) (nameOccs libs) [] List.nodup_nil

theorem by_name_entry_mem (n : Int) (libs : List Library)
    {kv : (Int × String) × List Library}
    (hkv : kv ∈ (gatherAll n libs).by_name) {b : Library} (hb : b ∈ kv.2) :
    b ∈ libs ∧ kv.1.1 ∈ b.lane_numbers ∧ b.name = kv.1.2 := by
  have hkv2 : alookup kv.1 (gatherAll n libs).by_name = some kv.2 :=
    (mem_iff_alookup _ (nodup_keys_by_name n libs) kv.1 kv.2).mp
      (by rwa [Prod.mk.eta])
  have : b ∈ (alookup (kv.1.1, kv.1.2) (gatherAll n libs).by_name).getD [] := by
    rw [Prod.mk.eta, hkv2]
    exact hb
  exact (mem_by_name_group n libs kv.1.1 kv.1.2 b).mp this

theorem mem_nameStream (by_name : List ((Int × String) × List Library))
    (q : Nat × Int) :
    q ∈ nameStream by_name
      ↔ ∃ kv ∈ by_name, kv.2.length ≠ 1
          ∧ ∃ b ∈ kv.2, b.sodar_uuid = q.1 ∧ kv.1.1 = q.2 := by
  rw [nameStream, List.mem_flatMap]
  constructor
  · rintro ⟨kv, hkv, hq⟩
    by_cases h : kv.2.length ≠ 1
    · rw [if_pos h] at hq
      obtain ⟨b, hb, hbq⟩ := List.mem_map.mp hq
      rw [Prod.mk.injEq] at hbq
      exact ⟨kv, hkv, h, b, hb, hbq.1, hbq.2⟩
    · rw [if_neg h] at hq
      exact absurd hq (List.not_mem_nil q)
  · rintro ⟨kv, hkv, h, b, hb, hb1, hb2⟩
    refine ⟨kv, hkv, ?_⟩
    rw [if_pos h]
    apply List.mem_map.mpr
    exact ⟨b, hb, by rw [hb1, hb2, Prod.mk.eta]⟩

/-! ## The claims -/

/-- C4: for every library of a flow cell with `num_lanes` lanes, an error is
emitted under field "lane" if and only if some lane number lies outside
`[1, num_lanes]`; the emitted message is built (via `laneMsg`, which
range-formats with `pretty_range`) from exactly the sorted list of invalid
lane numbers, never any valid ones. -/
theorem claim_C4_lane_errors (fc : FlowCell) (hn : uuidsNodup fc.libraries)
    (lib : Library) (hmem : lib ∈ fc.libraries) :
    ((errorsFor (get_sample_sheet_errors fc) lib.sodar_uuid "lane" ≠ none)
        ↔ ∃ no ∈ lib.lane_numbers, no < 1 ∨ no > fc.num_lanes)
    ∧ ((∃ no ∈ lib.lane_numbers, no < 1 ∨ no > fc.num_lanes) →
        errorsFor (get_sample_sheet_errors fc) lib.sodar_uuid "lane"
          = some [laneMsg (badLaneNumbers fc.num_lanes lib)])
    ∧ (∀ l : Int, l ∈ badLaneNumbers fc.num_lanes lib
        ↔ (l ∈ lib.lane_numbers ∧ (l < 1 ∨ l > fc.num_lanes))) := by
  have hmas := sheet_lane_master fc hn hmem
  refine ⟨?_, ?_, fun l => mem_badLaneNumbers fc.num_lanes lib l⟩
  · rw [hmas]
    by_cases hE : (badLaneNumbers fc.num_lanes lib).isEmpty
    · rw [if_pos hE]
      simp only [ne_eq, not_true_eq_false, false_iff]
      exact (badLaneNumbers_isEmpty fc.num_lanes lib).mp hE
    · rw [if_neg hE]
      simp only [ne_eq, reduceCtorEq, not_false_eq_true, true_iff]
      by_contra hno
      exact hE ((badLaneNumbers_isEmpty fc.num_lanes lib).mpr hno)
  · intro hex
    rw [hmas, if_neg (fun hE =>
      (badLaneNumbers_isEmpty fc.num_lanes lib).mp hE hex)]

/-- Concrete flow cell for the C4 witness: one library on lanes 2 and 9 of
an 8-lane flow cell. -/
def libW4 : Library := ⟨1, "L", none, none, none, none, [2, 9]⟩

/-- The C4 witness flow cell. -/
def fcW4 : FlowCell := ⟨8, [libW4], []⟩

theorem claim_C4_witness :
    (errorsFor (get_sample_sheet_errors fcW4) 1 "lane"
        = some ["Flow cell does not have lane #9"])
    ∧ (9 ∈ badLaneNumbers 8 libW4 ∧ 2 ∉ badLaneNumbers 8 libW4) := by
  have h := claim_C4_lane_errors fcW4 (by decide) libW4 (by decide)
  refine ⟨?_, ?_, ?_⟩
  · have h2 := h.2.1 ⟨9, by decide, by decide⟩
    rw [show (libW4.sodar_uuid : Nat) = 1 from rfl] at h2
    rw [h2]
    decide
  · exact (h.2.2 9).mpr (by decide)
  · intro hc
    exact absurd ((h.2.2 2).mp hc) (by decide)

/-- C9: a library with an empty lane-number collection enters no lane-based
grouping and receives no "lane", no barcode-collision, and no
name-uniqueness error (its only possible "name" error is the
invalid-characters one); the checker is a total function, so it cannot
raise. -/
theorem claim_C9_empty_lanes (fc : FlowCell) (hn : uuidsNodup fc.libraries)
    (lib : Library) (hmem : lib ∈ fc.libraries)
    (hemp : lib.lane_numbers = []) :
    (errorsFor (get_sample_sheet_errors fc) lib.sodar_uuid "lane" = none)
    ∧ (errorsFor (get_sample_sheet_errors fc) lib.sodar_uuid "barcode" = none)
    ∧ (errorsFor (get_sample_sheet_errors fc) lib.sodar_uuid "barcode2" = none)
    ∧ (errorsFor (get_sample_sheet_errors fc) lib.sodar_uuid "name"
        = if re_match_name lib.name then none else some [nameCharsMsg])
    ∧ (∀ (l : Int) (nm : String),
        lib ∉ (alookup (l, nm) (gatherAll fc.num_lanes fc.libraries).by_name).getD [])
    ∧ (∀ (l : Int) (s : Option String),
        (lib.sodar_uuid, lib) ∉ (alookup (l, s)
          (gatherAll fc.num_lanes fc.libraries).by_barcode).getD []
        ∧ (lib.sodar_uuid, lib) ∉ (alookup (l, s)
          (gatherAll fc.num_lanes fc.libraries).by_barcode2).getD []) := by
  have hbarcodeNone : alookup lib.sodar_uuid
      (barcodeBadLanes (gatherAll fc.num_lanes fc.libraries)) = none := by
    rcases barcode_badLanes_lookup fc.num_lanes hn hmem with ⟨h, _⟩ | ⟨lanes, _, _, hne, hiff⟩
    · exact h
    · exfalso
      obtain ⟨l, hl⟩ := List.exists_mem_of_ne_nil lanes hne
      obtain ⟨B, _, _, hlmem, _⟩ := (hiff l).mp hl
      rw [hemp] at hlmem
      exact List.not_mem_nil l hlmem
  have hnameNone : alookup lib.sodar_uuid
      (nameBadLanes (gatherAll fc.num_lanes fc.libraries).by_name) = none := by
    rw [nameBadLanes_eq, alookup_eq_none_iff]
    intro hkey
    rw [mem_keys_groupStepFold] at hkey
    obtain ⟨q, hq, hq1⟩ := hkey
    obtain ⟨kv, hkv, _, b, hb, hbu, _⟩ :=
      (mem_nameStream (gatherAll fc.num_lanes fc.libraries).by_name q).mp hq
    have hbmem := by_name_entry_mem fc.num_lanes fc.libraries hkv hb
    have hbL : b = lib := uuid_inj hn hbmem.1 hmem (by rw [hbu, hq1])
    rw [hbL, hemp] at hbmem
    exact List.not_mem_nil kv.1.1 hbmem.2.1
  refine ⟨?_, ?_, ?_, ?_, ?_, ?_⟩
  · rw [sheet_lane_master fc hn hmem, if_pos (by simp [badLaneNumbers, hemp, sortInts])]
  · exact sheet_barcode_master_none fc hn hmem hbarcodeNone "barcode"
      (by decide) (by decide)
  · exact sheet_barcode_master_none fc hn hmem hbarcodeNone "barcode2"
      (by decide) (by decide)
  · exact sheet_name_master_none fc hn hmem hnameNone
  · intro l nm hmemgrp
    have := (mem_by_name_group fc.num_lanes fc.libraries l nm lib).mp hmemgrp
    rw [hemp] at this
    exact List.not_mem_nil l this.2.1
  · intro l s
    constructor
    · intro hmemgrp
      have h1 := (mem_group_seqGroups Library.get_barcode_seq hn l s
        lib.sodar_uuid lib).mp (by
          rwa [by_barcode_eq_seqGroups fc.num_lanes fc.libraries] at hmemgrp)
      rw [hemp] at h1
      exact List.not_mem_nil l h1.2.2.1
    · intro hmemgrp
      have h1 := (mem_group_seqGroups Library.get_barcode_seq2 hn l s
        lib.sodar_uuid lib).mp (by
          rwa [by_barcode2_eq_seqGroups fc.num_lanes fc.libraries] at hmemgrp)
      rw [hemp] at h1
      exact List.not_mem_nil l h1.2.2.1

/-- Concrete flow cell for the C9 witness: one library with no lanes. -/
def libW9 : Library := ⟨1, "ok", none, none, none, none, []⟩

/-- The C9 witness flow cell. -/
def fcW9 : FlowCell := ⟨8, [libW9], []⟩

theorem claim_C9_witness :
    (errorsFor (get_sample_sheet_errors fcW9) 1 "lane" = none)
    ∧ (errorsFor (get_sample_sheet_errors fcW9) 1 "barcode" = none)
    ∧ (errorsFor (get_sample_sheet_errors fcW9) 1 "name" = none) := by
  have h := claim_C9_empty_lanes fcW9 (by decide) libW9 (by decide) rfl
  refine ⟨h.1, h.2.1, ?_⟩
  have h4 := h.2.2.2.1
  rw [if_pos (by decide)] at h4
  exact h4

/-- The claim-side name-validity violation of C10: the name is empty or
contains a character outside `[a-zA-Z0-9_-]`. -/
def nameViolation (nm : String) : Prop :=
  nm = "" ∨ ∃ c ∈ nm.data, nameChar c = false

/-- Concrete library for the C10 counterexample: its name ends in a newline,
which `re.match("^[a-zA-Z0-9_-]+$", ...)` accepts (Python `$` matches just
before a trailing newline), so no error is emitted. -/
def libC10 : Library := ⟨1, "A\n", none, none, none, none, [1]⟩

/-- The C10 counterexample flow cell. -/
def fcC10 : FlowCell := ⟨8, [libC10], []⟩

/-- C10 counterexample: the name "A\n" contains a disallowed character, yet
the checker reports no error at all, contradicting the claim as stated. -/
theorem claim_C10_counterexample :
    nameViolation libC10.name ∧ get_sample_sheet_errors fcC10 = [] :=
  ⟨Or.inr ⟨'\n', by decide, by decide⟩, by decide⟩

/-- C10 amended: for every library whose name fails Python's
`re.match("^[a-zA-Z0-9_-]+$", name)` — that is, a name that is empty or
contains a disallowed character, except that a single trailing newline after
an otherwise valid non-empty name is tolerated — the checker emits, first in
the "name" error list, the message that library names may only contain
alphanumeric characters, hyphens, and underscores. -/
theorem claim_C10_amended (fc : FlowCell) (hn : uuidsNodup fc.libraries)
    (lib : Library) (hmem : lib ∈ fc.libraries)
    (hbad : re_match_name lib.name = false) :
    ∃ msgs, errorsFor (get_sample_sheet_errors fc) lib.sodar_uuid "name"
        = some msgs
      ∧ nameCharsMsg ∈ msgs ∧ msgs.head? = some nameCharsMsg := by
  cases h : alookup lib.sodar_uuid
      (nameBadLanes (gatherAll fc.num_lanes fc.libraries).by_name) with
  | none =>
    refine ⟨[nameCharsMsg], ?_, by simp, rfl⟩
    rw [sheet_name_master_none fc hn hmem h, hbad]
    simp
  | some lanes =>
    refine ⟨[nameCharsMsg, nameUniqMsg lib.name lanes], ?_, by simp, rfl⟩
    rw [sheet_name_master_some fc hn hmem h, hbad]
    simp

/-- Concrete library for the C10 witness: a name with a space. -/
def libW10 : Library := ⟨1, "a b", none, none, none, none, [1]⟩

/-- The C10 witness flow cell. -/
def fcW10 : FlowCell := ⟨8, [libW10], []⟩

theorem claim_C10_witness :
    ∃ msgs, errorsFor (get_sample_sheet_errors fcW10) libW10.sodar_uuid "name"
        = some msgs
      ∧ nameCharsMsg ∈ msgs ∧ msgs.head? = some nameCharsMsg :=
  claim_C10_amended fcW10 (by decide) libW10 (by decide) (by decide)

/-- The grouping key of C1 as the claim states it: an empty and an absent
sequence both collapse to the single key "unset" (`none`). -/
def unsetKey (s : Option String) : Option String :=
  if optTruthy s then s else none

/-- C1's collision condition as stated by the claim: some shared lane on
which both barcode-1 keys and both barcode-2 keys agree, with empty/absent
merged into one "unset" key. -/
def claimCollidesAt (A B : Library) (l : Int) : Prop :=
  l ∈ A.lane_numbers ∧ l ∈ B.lane_numbers
    ∧ unsetKey A.get_barcode_seq = unsetKey B.get_barcode_seq
    ∧ unsetKey A.get_barcode_seq2 = unsetKey B.get_barcode_seq2

/-- The `clashes` value computed by the barcode check of
`get_sample_sheet_errors` for one library and lane: the code looks the
library's group up in `by_barcode` and intersects it with its
`by_barcode2` group. -/
def clashUuids (st : SheetMaps) (library : Library) (lane : Int) : List Nat :=
  clashesFor st ((alookup (lane, library.get_barcode_seq) st.by_barcode).getD [])
    lane library

/-- First library of the C1 counterexample: barcode 1 absent (`None`). -/
def libC1a : Library := ⟨1, "A", none, none, none, some "CC", [1]⟩

/-- Second library of the C1 counterexample: barcode 1 the empty string. -/
def libC1b : Library := ⟨2, "B", none, some "", none, some "CC", [1]⟩

/-- The C1 counterexample flow cell. -/
def fcC1 : FlowCell := ⟨8, [libC1a, libC1b], []⟩

/-- C1 counterexample: two distinct libraries that collide under the claim's
grouping (both barcode-1 values unset — one absent, one empty — and equal
barcode-2 values on a shared lane), yet the checker reports nothing at all:
the code keys its groups by the exact resolved value, so `None` and `""`
land in different groups. -/
theorem claim_C1_counterexample :
    libC1a.sodar_uuid ≠ libC1b.sodar_uuid
    ∧ claimCollidesAt libC1a libC1b 1
    ∧ get_sample_sheet_errors fcC1 = [] := by
  refine ⟨by decide, ⟨by decide, by decide, by decide, by decide⟩, by decide⟩

theorem mem_clashUuids (n : Int) {libs : List Library} (hn : uuidsNodup libs)
    (A : Library) (lane : Int) (u : Nat) :
    u ∈ clashUuids (gatherAll n libs) A lane
      ↔ (∃ B ∈ libs, B.sodar_uuid = u ∧ lane ∈ B.lane_numbers
          ∧ B.get_barcode_seq = A.get_barcode_seq
          ∧ B.get_barcode_seq2 = A.get_barcode_seq2)
        ∧ u ≠ A.sodar_uuid := by
  unfold clashUuids clashesFor
  rw [by_barcode_eq_seqGroups n libs, by_barcode2_eq_seqGroups n libs,
    List.mem_filter]
  simp only [Bool.and_eq_true, decide_eq_true_eq]
  constructor
  · rintro ⟨h1, h2, hne⟩
    obtain ⟨e, he, heu⟩ := List.mem_map.mp h1
    obtain ⟨e2, he2, he2u⟩ := List.mem_map.mp h2
    have hm1 := (mem_group_seqGroups Library.get_barcode_seq hn lane
      A.get_barcode_seq e.1 e.2).mp (by rwa [Prod.mk.eta])
    have hm2 := (mem_group_seqGroups Library.get_barcode_seq2 hn lane
      A.get_barcode_seq2 e2.1 e2.2).mp (by rwa [Prod.mk.eta])
    have heq : e.2 = e2.2 :=
      uuid_inj hn hm1.1 hm2.1 (by rw [hm1.2.1, hm2.2.1, heu, he2u])
    refine ⟨⟨e.2, hm1.1, by rw [hm1.2.1, heu], hm1.2.2.1, hm1.2.2.2, ?_⟩, hne⟩
    rw [heq, hm2.2.2.2]
  · rintro ⟨⟨B, hB, hBu, hBl, hs1, hs2⟩, hne⟩
    refine ⟨?_, ?_, ?_⟩
    · have hmem : (u, B) ∈ (alookup (lane, A.get_barcode_seq)
          (seqGroups Library.get_barcode_seq libs)).getD [] :=
        (mem_group_seqGroups Library.get_barcode_seq hn lane A.get_barcode_seq
          u B).mpr ⟨hB, hBu, hBl, hs1⟩
      exact List.mem_map_of_mem Prod.fst hmem
    · have hmem : (u, B) ∈ (alookup (lane, A.get_barcode_seq2)
          (seqGroups Library.get_barcode_seq2 libs)).getD [] :=
        (mem_group_seqGroups Library.get_barcode_seq2 hn lane A.get_barcode_seq2
          u B).mpr ⟨hB, hBu, hBl, hs2⟩
      exact List.mem_map_of_mem Prod.fst hmem
    · exact hne

/-- C1 amended: for two libraries of a flow cell with distinct UUIDs, the
barcode check computes a clash between them (the checker then reports a
barcode collision involving both) if and only if they share some lane on
which their resolved barcode-1 sequences are equal and their resolved
barcode-2 sequences are equal — as exact values: an absent sequence groups
only with absent ones and an empty string only with empty strings.  Sharing
only one of the two indices on a lane yields no clash. -/
theorem claim_C1_amended (fc : FlowCell) (hn : uuidsNodup fc.libraries)
    (A B : Library) (hA : A ∈ fc.libraries) (hB : B ∈ fc.libraries) :
    (∃ lane ∈ A.lane_numbers,
        B.sodar_uuid ∈ clashUuids (gatherAll fc.num_lanes fc.libraries) A lane)
      ↔ (B.sodar_uuid ≠ A.sodar_uuid
          ∧ ∃ lane, lane ∈ A.lane_numbers ∧ lane ∈ B.lane_numbers
            ∧ B.get_barcode_seq = A.get_barcode_seq
            ∧ B.get_barcode_seq2 = A.get_barcode_seq2) := by
  constructor
  · rintro ⟨lane, hlaneA, hmemcl⟩
    obtain ⟨⟨B2, hB2, hB2u, hB2l, hs1, hs2⟩, hne⟩ :=
      (mem_clashUuids fc.num_lanes hn A lane B.sodar_uuid).mp hmemcl
    have hBeq : B2 = B := uuid_inj hn hB2 hB hB2u
    subst hBeq
    exact ⟨hne, lane, hlaneA, hB2l, hs1, hs2⟩
  · rintro ⟨hne, lane, hlA, hlB, hs1, hs2⟩
    refine ⟨lane, hlA, (mem_clashUuids fc.num_lanes hn A lane B.sodar_uuid).mpr
      ⟨⟨B, hB, rfl, hlB, hs1, hs2⟩, hne⟩⟩

/-- First library of the C1 witness: a genuine dual-index collision. -/
def libW1a : Library := ⟨1, "A", none, some "AAAA", none, some "CCCC", [1]⟩

/-- Second library of the C1 witness. -/
def libW1b : Library := ⟨2, "B", none, some "AAAA", none, some "CCCC", [1]⟩

/-- The C1 witness flow cell. -/
def fcW1 : FlowCell := ⟨8, [libW1a, libW1b], []⟩

theorem claim_C1_witness :
    ∃ lane ∈ libW1a.lane_numbers,
      libW1b.sodar_uuid
        ∈ clashUuids (gatherAll fcW1.num_lanes fcW1.libraries) libW1a lane :=
  (claim_C1_amended fcW1 (by decide) libW1a libW1b (by decide) (by decide)).mpr
    ⟨by decide, 1, by decide, by decide, by decide, by decide⟩

/-- The fields the claim says must be flagged for a barcode collision,
stated from the spec's words: both fields when neither sequence is set,
otherwise exactly the set ones (`None` and the empty string count as
unset, matching the "-" placeholder rule). -/
def specFlaggedFields (L : Library) : List String :=
  if ¬ optTruthy L.get_barcode_seq ∧ ¬ optTruthy L.get_barcode_seq2 then
    ["barcode", "barcode2"]
  else
    (if optTruthy L.get_barcode_seq then ["barcode"] else [])
      ++ (if optTruthy L.get_barcode_seq2 then ["barcode2"] else [])

theorem specFlaggedFields_eq (L : Library) :
    specFlaggedFields L = barcodeKeys L := by
  unfold specFlaggedFields barcodeKeys
  by_cases h1 : optTruthy L.get_barcode_seq <;>
    by_cases h2 : optTruthy L.get_barcode_seq2 <;> simp [h1, h2]

/-- C2: a library involved in at least one barcode collision gets exactly
one combined message per flagged field — flagged fields per the spec rule
(`specFlaggedFields`); the other barcode field carries no error; the
message (built by `barcodeUniqMsg`) shows both resolved sequences with "-"
for unset and the `pretty_range`-formatted list of a duplicate-free lane
list containing exactly the offending lanes. -/
theorem claim_C2_barcode_errors (fc : FlowCell) (hn : uuidsNodup fc.libraries)
    (lib : Library) (hmem : lib ∈ fc.libraries)
    (hinv : ∃ l, collidesAt fc.libraries lib l) :
    ∃ lanes : List Int, lanes.Nodup
      ∧ (∀ l, l ∈ lanes ↔ collidesAt fc.libraries lib l)
      ∧ (∀ field ∈ specFlaggedFields lib,
          errorsFor (get_sample_sheet_errors fc) lib.sodar_uuid field
            = some [barcodeUniqMsg lib.get_barcode_seq lib.get_barcode_seq2 lanes])
      ∧ (∀ field, (field = "barcode" ∨ field = "barcode2")
          → field ∉ specFlaggedFields lib
          → errorsFor (get_sample_sheet_errors fc) lib.sodar_uuid field = none) := by
  rcases barcode_badLanes_lookup fc.num_lanes hn hmem with ⟨_, hnone⟩ | ⟨lanes, hsome, hnd, _, hiff⟩
  · obtain ⟨l, hl⟩ := hinv
    exact absurd hl (hnone l)
  · refine ⟨lanes, hnd, hiff, ?_, ?_⟩
    · intro field hfield
      rw [specFlaggedFields_eq] at hfield
      have hfd := barcodeKeys_subset lib field hfield
      have h1 : field ≠ "name" := by rcases hfd with h | h <;> rw [h] <;> decide
      have h2 : field ≠ "lane" := by rcases hfd with h | h <;> rw [h] <;> decide
      rw [sheet_barcode_master_some fc hn hmem hsome field h1 h2, if_pos hfield]
    · intro field hfd hfield
      rw [specFlaggedFields_eq] at hfield
      have h1 : field ≠ "name" := by rcases hfd with h | h <;> rw [h] <;> decide
      have h2 : field ≠ "lane" := by rcases hfd with h | h <;> rw [h] <;> decide
      rw [sheet_barcode_master_some fc hn hmem hsome field h1 h2, if_neg hfield]

/-- First library of the C2 witness. -/
def libW2a : Library := ⟨1, "A", none, some "AAAA", none, some "CCCC", [1]⟩

/-- Second library of the C2 witness. -/
def libW2b : Library := ⟨2, "B", none, some "AAAA", none, some "CCCC", [1]⟩

/-- The C2 witness flow cell. -/
def fcW2 : FlowCell := ⟨8, [libW2a, libW2b], []⟩

theorem claim_C2_witness :
    ∃ lanes : List Int, lanes.Nodup
      ∧ (∀ l, l ∈ lanes ↔ collidesAt fcW2.libraries libW2a l)
      ∧ (∀ field ∈ specFlaggedFields libW2a,
          errorsFor (get_sample_sheet_errors fcW2) libW2a.sodar_uuid field
            = some [barcodeUniqMsg libW2a.get_barcode_seq
                libW2a.get_barcode_seq2 lanes])
      ∧ (∀ field, (field = "barcode" ∨ field = "barcode2")
          → field ∉ specFlaggedFields libW2a
          → errorsFor (get_sample_sheet_errors fcW2) libW2a.sodar_uuid field
              = none) :=
  claim_C2_barcode_errors fcW2 (by decide) libW2a (by decide)
    ⟨1, libW2b, by decide, by decide, by decide, by decide, by decide, by decide⟩

/-! ## The index checker -/

theorem mem_setAdd (es : List String) (x s : String) :
    s ∈ setAdd es x ↔ s ∈ es ∨ s = x := by
  unfold setAdd
  by_cases h : x ∈ es
  · rw [if_pos h]
    constructor
    · intro hs; exact Or.inl hs
    · rintro (hs | rfl)
      · exact hs
      · exact h
  · rw [if_neg h, List.mem_append, List.mem_singleton]

theorem mem_expectedAdd (bc : Option BarcodeSetEntry) (lit : Option String)
    (es : List String) (s : String) :
    s ∈ expectedAdd bc lit es
      ↔ s ∈ es ∨ (∃ b, bc = some b ∧ b.sequence = s)
        ∨ (bc = none ∧ lit = some s ∧ s ≠ "") := by
  cases bc with
  | some b =>
    rw [show expectedAdd (some b) lit es = setAdd es b.sequence from rfl,
      mem_setAdd]
    constructor
    · rintro (h | h)
      · exact Or.inl h
      · exact Or.inr (Or.inl ⟨b, rfl, h.symm⟩)
    · rintro (h | ⟨b2, hb2, hs⟩ | ⟨hc, _, _⟩)
      · exact Or.inl h
      · rw [Option.some_inj] at hb2
        exact Or.inr (by rw [hb2]; exact hs.symm)
      · exact Option.noConfusion hc
  | none =>
    cases lit with
    | none =>
      rw [show expectedAdd none none es = es from rfl]
      constructor
      · intro h; exact Or.inl h
      · rintro (h | ⟨b, hb2, _⟩ | ⟨_, hc, _⟩)
        · exact h
        · exact Option.noConfusion hb2
        · exact Option.noConfusion hc
    | some t =>
      rw [show expectedAdd none (some t) es
        = if t == "" then es else setAdd es t from rfl]
      by_cases ht : (t == "") = true
      · rw [if_pos ht, beq_iff_eq] at *
        constructor
        · intro h; exact Or.inl h
        · rintro (h | ⟨b, hb2, _⟩ | ⟨_, hts, hs⟩)
          · exact h
          · exact Option.noConfusion hb2
          · rw [Option.some_inj] at hts
            exact absurd (by rw [← hts, ht]) hs
      · rw [if_neg ht, mem_setAdd]
        rw [beq_iff_eq] at ht
        constructor
        · rintro (h | h)
          · exact Or.inl h
          · exact Or.inr (Or.inr ⟨rfl, by rw [h], by rw [h]; exact ht⟩)
        · rintro (h | ⟨b, hb2, _⟩ | ⟨_, hts, _⟩)
          · exact Or.inl h
          · exact Option.noConfusion hb2
          · rw [Option.some_inj] at hts
            exact Or.inr hts.symm

theorem mem_expectedStep (read : Int) (es : List String) (lib : Library)
    (s : String) :
    s ∈ expectedStep read es lib
      ↔ s ∈ es
        ∨ (∃ b, (if read = 0 then lib.barcode else lib.barcode2) = some b
            ∧ b.sequence = s)
        ∨ ((if read = 0 then lib.barcode else lib.barcode2) = none
            ∧ (if read = 0 then lib.barcode_seq else lib.barcode_seq2) = some s
            ∧ s ≠ "") :=
  mem_expectedAdd _ _ es s

theorem mem_expectedSeqs (libs : List Library) (hist : LaneIndexHistogram)
    (s : String) :
    s ∈ expectedSeqs libs hist
      ↔ ∃ lib ∈ libs, hist.lane ∈ lib.lane_numbers
          ∧ ((∃ b, (if hist.index_read_no = 0 then lib.barcode else lib.barcode2)
                = some b ∧ b.sequence = s)
             ∨ ((if hist.index_read_no = 0 then lib.barcode else lib.barcode2) = none
                ∧ (if hist.index_read_no = 0 then lib.barcode_seq
                    else lib.barcode_seq2) = some s
                ∧ s ≠ "")) := by
  have haux : ∀ (ls : List Library) (es : List String),
      s ∈ ls.foldl (fun es library =>
          if hist.lane ∈ library.lane_numbers then
            expectedStep hist.index_read_no es library
          else es) es
        ↔ s ∈ es ∨ ∃ lib ∈ ls, hist.lane ∈ lib.lane_numbers
            ∧ ((∃ b, (if hist.index_read_no = 0 then lib.barcode else lib.barcode2)
                  = some b ∧ b.sequence = s)
               ∨ ((if hist.index_read_no = 0 then lib.barcode else lib.barcode2)
                    = none
                  ∧ (if hist.index_read_no = 0 then lib.barcode_seq
                      else lib.barcode_seq2) = some s
                  ∧ s ≠ "")) := by
    intro ls
    induction ls with
    | nil => intro es; simp
    | cons lib ls ih =>
      intro es
      rw [List.foldl_cons]
      by_cases hl : hist.lane ∈ lib.lane_numbers
      · rw [if_pos hl, ih, mem_expectedStep]
        constructor
        · rintro ((h | h | h) | ⟨lib2, h2, h3, h4⟩)
          · exact Or.inl h
          · exact Or.inr ⟨lib, List.mem_cons_self _ _, hl, Or.inl h⟩
          · exact Or.inr ⟨lib, List.mem_cons_self _ _, hl, Or.inr h⟩
          · exact Or.inr ⟨lib2, List.mem_cons_of_mem _ h2, h3, h4⟩
        · rintro (h | ⟨lib2, h2, h3, h4⟩)
          · exact Or.inl (Or.inl h)
          · rcases List.mem_cons.mp h2 with rfl | h2
            · rcases h4 with h4 | h4
              · exact Or.inl (Or.inr (Or.inl h4))
              · exact Or.inl (Or.inr (Or.inr h4))
            · exact Or.inr ⟨lib2, h2, h3, h4⟩
      · rw [if_neg hl, ih]
        constructor
        · rintro (h | ⟨lib2, h2, h3, h4⟩)
          · exact Or.inl h
          · exact Or.inr ⟨lib2, List.mem_cons_of_mem _ h2, h3, h4⟩
        · rintro (h | ⟨lib2, h2, h3, h4⟩)
          · exact Or.inl h
          · rcases List.mem_cons.mp h2 with rfl | h2
            · exact absurd h3 hl
            · exact Or.inr ⟨lib2, h2, h3, h4⟩
  rw [expectedSeqs, haux]
  simp

/-- The claim-side expected set of C5: the resolved sequences of the
libraries assigned to the lane (barcode 1 for read 0, barcode 2 otherwise);
libraries with no resolved sequence contribute nothing. -/
def specExpected (libs : List Library) (lane read : Int) (s : String) : Prop :=
  ∃ lib ∈ libs, lane ∈ lib.lane_numbers
    ∧ (if read = 0 then lib.get_barcode_seq else lib.get_barcode_seq2) = some s

instance (libs : List Library) (lane read : Int) (s : String) :
    Decidable (specExpected libs lane read s) :=
  inferInstanceAs (Decidable (∃ lib ∈ libs, lane ∈ lib.lane_numbers
    ∧ (if read = 0 then lib.get_barcode_seq else lib.get_barcode_seq2) = some s))

theorem mem_expectedSeqs_iff_specExpected (libs : List Library)
    (hist : LaneIndexHistogram) (s : String) (hs : s ≠ "") :
    s ∈ expectedSeqs libs hist
      ↔ specExpected libs hist.lane hist.index_read_no s := by
  rw [mem_expectedSeqs, specExpected]
  constructor
  · rintro ⟨lib, hmem, hlane, hres⟩
    refine ⟨lib, hmem, hlane, ?_⟩
    rcases hres with ⟨b, hb, hbs⟩ | ⟨hb, hlit, _⟩
    · by_cases hr : hist.index_read_no = 0
      · rw [if_pos hr]
        rw [if_pos hr] at hb
        simp [Library.get_barcode_seq, hb, hbs]
      · rw [if_neg hr]
        rw [if_neg hr] at hb
        simp [Library.get_barcode_seq2, hb, hbs]
    · by_cases hr : hist.index_read_no = 0
      · rw [if_pos hr]
        rw [if_pos hr] at hb hlit
        simp [Library.get_barcode_seq, hb, hlit]
      · rw [if_neg hr]
        rw [if_neg hr] at hb hlit
        simp [Library.get_barcode_seq2, hb, hlit]
  · rintro ⟨lib, hmem, hlane, hres⟩
    refine ⟨lib, hmem, hlane, ?_⟩
    by_cases hr : hist.index_read_no = 0
    · rw [if_pos hr] at hres
      cases hb : lib.barcode with
      | some b =>
        rw [Library.get_barcode_seq, hb] at hres
        have hres2 : b.sequence = s := Option.some_inj.mp hres
        exact Or.inl ⟨b, by rw [if_pos hr], hres2⟩
      | none =>
        rw [Library.get_barcode_seq, hb] at hres
        exact Or.inr ⟨by rw [if_pos hr], by rw [if_pos hr]; exact hres, hs⟩
    · rw [if_neg hr] at hres
      cases hb : lib.barcode2 with
      | some b =>
        rw [Library.get_barcode_seq2, hb] at hres
        have hres2 : b.sequence = s := Option.some_inj.mp hres
        exact Or.inl ⟨b, by rw [if_neg hr], hres2⟩
      | none =>
        rw [Library.get_barcode_seq2, hb] at hres
        exact Or.inr ⟨by rw [if_neg hr], by rw [if_neg hr]; exact hres, hs⟩

/-- The sequence consists only of `N` characters (vacuously true for ""). -/
def allN (s : String) : Prop := ∀ c ∈ s.data, c = 'N'

instance (s : String) : Decidable (allN s) :=
  inferInstanceAs (Decidable (∀ c ∈ s.data, c = 'N'))

theorem allN_decide (s : String) :
    (s.data.all (fun c => c == 'N')) = true ↔ allN s := by
  rw [List.all_eq_true]
  unfold allN
  simp

theorem ne_empty_of_not_allN {s : String} (h : ¬ allN s) : s ≠ "" := by
  intro hc
  subst hc
  exact h (fun c hc => absurd hc (List.not_mem_nil c))

theorem histEntriesFold_lookup (libs : List Library)
    (hist : LaneIndexHistogram) (lane read : Int) (seq : String)
    (entries : List (String × Int)) :
    ∀ result, alookup ((lane, read, seq) : Int × Int × String)
        (entries.foldl (fun result sc =>
          if sc.1.data.all (fun s => s == 'N') then result
          else if sc.1 ∈ expectedSeqs libs hist then result
          else dassign (hist.lane, hist.index_read_no, sc.1)
            [indexErrMsg sc.1 hist.lane hist.index_read_no] result) result)
      = if hist.lane = lane ∧ hist.index_read_no = read
            ∧ seq ∈ entries.map Prod.fst
            ∧ ¬ allN seq ∧ seq ∉ expectedSeqs libs hist
        then some [indexErrMsg seq lane read]
        else alookup (lane, read, seq) result := by
  induction entries with
  | nil =>
    intro result
    rw [List.foldl_nil, if_neg]
    rintro ⟨_, _, hmem, _⟩
    simp at hmem
  | cons sc rest ih =>
    intro result
    rw [List.foldl_cons, ih]
    by_cases hrest : hist.lane = lane ∧ hist.index_read_no = read
        ∧ seq ∈ rest.map Prod.fst ∧ ¬ allN seq ∧ seq ∉ expectedSeqs libs hist
    · rw [if_pos hrest, if_pos ⟨hrest.1, hrest.2.1,
        by rw [List.map_cons]; exact List.mem_cons_of_mem _ hrest.2.2.1,
        hrest.2.2.2⟩]
    · rw [if_neg hrest]
      by_cases hN : (sc.1.data.all (fun c => c == 'N')) = true
      · rw [if_pos hN, if_neg]
        rintro ⟨h1, h2, hmem, hnN, hexp⟩
        rw [List.map_cons] at hmem
        rcases List.mem_cons.mp hmem with hh | hh
        · rw [allN_decide] at hN
          exact hnN (hh ▸ hN)
        · exact hrest ⟨h1, h2, hh, hnN, hexp⟩
      · rw [if_neg hN]
        by_cases hexp : sc.1 ∈ expectedSeqs libs hist
        · rw [if_pos hexp, if_neg]
          rintro ⟨h1, h2, hmem, hnN, hexp2⟩
          rw [List.map_cons] at hmem
          rcases List.mem_cons.mp hmem with hh | hh
          · exact hexp2 (hh ▸ hexp)
          · exact hrest ⟨h1, h2, hh, hnN, hexp2⟩
        · rw [if_neg hexp]
          by_cases hkey : ((hist.lane, hist.index_read_no, sc.1)
              : Int × Int × String) = (lane, read, seq)
          · have h1 : hist.lane = lane := congrArg Prod.fst hkey
            have h2 : hist.index_read_no = read :=
              congrArg (fun p : Int × Int × String => p.2.1) hkey
            have h3 : sc.1 = seq :=
              congrArg (fun p : Int × Int × String => p.2.2) hkey
            rw [h1, h2, h3, alookup_dassign_self, if_pos]
            refine ⟨rfl, rfl,
              by rw [List.map_cons, h3]; exact List.mem_cons_self _ _, ?_,
              h3 ▸ hexp⟩
            rw [← h3]
            intro hc
            exact hN ((allN_decide sc.1).mpr hc)
          · rw [alookup_dassign_ne _ _ (fun hc => hkey hc.symm), if_neg]
            rintro ⟨h1, h2, hmem, hnN, hexp2⟩
            rw [List.map_cons] at hmem
            rcases List.mem_cons.mp hmem with hh | hh
            · exact hkey (by rw [h1, h2, hh])
            · exact hrest ⟨h1, h2, hh, hnN, hexp2⟩

theorem histsFold_lookup (libs : List Library)
    (hists : List LaneIndexHistogram) (lane read : Int) (seq : String) :
    ∀ result, alookup ((lane, read, seq) : Int × Int × String)
        (hists.foldl (fun r h => histErrors libs h r) result)
      = if ∃ hist ∈ hists, hist.lane = lane ∧ hist.index_read_no = read
            ∧ seq ∈ hist.histogram.map Prod.fst
            ∧ ¬ allN seq ∧ seq ∉ expectedSeqs libs hist
        then some [indexErrMsg seq lane read]
        else alookup (lane, read, seq) result := by
  induction hists with
  | nil =>
    intro result
    rw [List.foldl_nil, if_neg]
    rintro ⟨hist, hmem, _⟩
    exact List.not_mem_nil hist hmem
  | cons h rest ih =>
    intro result
    rw [List.foldl_cons, ih]
    by_cases hrest : ∃ hist ∈ rest, hist.lane = lane
        ∧ hist.index_read_no = read ∧ seq ∈ hist.histogram.map Prod.fst
        ∧ ¬ allN seq ∧ seq ∉ expectedSeqs libs hist
    · obtain ⟨hist, hmem, hc⟩ := hrest
      rw [if_pos ⟨hist, hmem, hc⟩, if_pos ⟨hist, List.mem_cons_of_mem h hmem, hc⟩]
    · rw [if_neg hrest, histErrors, histEntriesFold_lookup]
      by_cases hh : h.lane = lane ∧ h.index_read_no = read
          ∧ seq ∈ h.histogram.map Prod.fst
          ∧ ¬ allN seq ∧ seq ∉ expectedSeqs libs h
      · rw [if_pos hh, if_pos ⟨h, List.mem_cons_self h rest, hh⟩]
      · rw [if_neg hh, if_neg]
        rintro ⟨hist, hmem, hc⟩
        rcases List.mem_cons.mp hmem with rfl | hmem
        · exact hh hc
        · exact hrest ⟨hist, hmem, hc⟩

/-- C5: the index error report contains key `(lane, read, seq)` — mapping to
the single message that the sequence was seen in the BCLs but not in the
sample sheet — if and only if some histogram for that lane and index read
observed the sequence, the sequence is not all-`N`, and it is not among the
resolved sequences (`specExpected`) of the libraries on that lane. -/
theorem claim_C5_index_errors (fc : FlowCell) (lane read : Int) (seq : String) :
    alookup ((lane, read, seq) : Int × Int × String) (get_index_errors fc)
      = if (∃ hist ∈ fc.index_histograms, hist.lane = lane
            ∧ hist.index_read_no = read ∧ seq ∈ hist.histogram.map Prod.fst)
          ∧ ¬ allN seq ∧ ¬ specExpected fc.libraries lane read seq
        then some [indexErrMsg seq lane read]
        else none := by
  rw [get_index_errors, histsFold_lookup]
  rw [show alookup ((lane, read, seq) : Int × Int × String) [] = none from rfl]
  apply if_congr _ rfl rfl
  constructor
  · rintro ⟨hist, hmem, h1, h2, h3, h4, h5⟩
    refine ⟨⟨hist, hmem, h1, h2, h3⟩, h4, ?_⟩
    rw [← h1, ← h2]
    intro hc
    exact h5 ((mem_expectedSeqs_iff_specExpected fc.libraries hist seq
      (ne_empty_of_not_allN h4)).mpr hc)
  · rintro ⟨⟨hist, hmem, h1, h2, h3⟩, h4, h5⟩
    refine ⟨hist, hmem, h1, h2, h3, h4, ?_⟩
    intro hc
    apply h5
    rw [← h1, ← h2]
    exact (mem_expectedSeqs_iff_specExpected fc.libraries hist seq
      (ne_empty_of_not_allN h4)).mp hc

/-- Two histograms identical except for the observed counts: same lane,
index read, sample size, and the same observed sequences in the same
order. -/
def sameShape (h1 h2 : LaneIndexHistogram) : Prop :=
  h1.lane = h2.lane ∧ h1.index_read_no = h2.index_read_no
    ∧ h1.sample_size = h2.sample_size
    ∧ h1.histogram.map Prod.fst = h2.histogram.map Prod.fst

theorem histErrors_count_congr (libs : List Library)
    {h1 h2 : LaneIndexHistogram} (hs : sameShape h1 h2) :
    ∀ result, histErrors libs h1 result = histErrors libs h2 result := by
  obtain ⟨l1, r1, s1, g1⟩ := h1
  obtain ⟨l2, r2, s2, g2⟩ := h2
  obtain ⟨hl, hr, hsz, hg⟩ := hs
  simp only at hl hr hsz hg
  subst hl
  subst hr
  subst hsz
  intro result
  unfold histErrors
  simp only
  revert result
  induction g1 generalizing g2 with
  | nil =>
    cases g2 with
    | nil => intro result; rfl
    | cons b bs => exact absurd hg (by simp)
  | cons a as ih =>
    cases g2 with
    | nil => exact absurd hg (by simp)
    | cons b bs =>
      simp only [List.map_cons, List.cons.injEq] at hg
      intro result
      rw [List.foldl_cons, List.foldl_cons, hg.1]
      exact ih bs hg.2 _

theorem histsFold_count_congr (libs : List Library)
    {hs1 hs2 : List LaneIndexHistogram}
    (hh : List.Forall₂ sameShape hs1 hs2) :
    ∀ result, hs1.foldl (fun r h => histErrors libs h r) result
      = hs2.foldl (fun r h => histErrors libs h r) result := by
  induction hh with
  | nil => intro r; rfl
  | cons hab _ ih =>
    intro r
    rw [List.foldl_cons, List.foldl_cons, histErrors_count_congr libs hab r]
    exact ih _

/-- C6: the index report depends only on which sequences were observed,
never on their counts — two runs on inputs identical except for the counts
in the histogram mappings produce identical reports. -/
theorem claim_C6_count_independent (fc1 fc2 : FlowCell)
    (hnum : fc1.num_lanes = fc2.num_lanes)
    (hlib : fc1.libraries = fc2.libraries)
    (hh : List.Forall₂ sameShape fc1.index_histograms fc2.index_histograms) :
    get_index_errors fc1 = get_index_errors fc2 := by
  rw [get_index_errors, get_index_errors, hlib]
  exact histsFold_count_congr fc2.libraries hh []

/-- Histogram for the C6 witness, first counts. -/
def histW6a : LaneIndexHistogram := ⟨1, 0, 100, [("AAAA", 100), ("TTTT", 3)]⟩

/-- Histogram for the C6 witness, different counts, same sequences. -/
def histW6b : LaneIndexHistogram := ⟨1, 0, 100, [("AAAA", 7), ("TTTT", 9999)]⟩

/-- Library for the C6 witness. -/
def libW6 : Library := ⟨1, "L", none, some "AAAA", none, none, [1]⟩

/-- The two C6 witness flow cells, identical except for observed counts. -/
def fcW6a : FlowCell := ⟨8, [libW6], [histW6a]⟩

/-- Companion flow cell of `fcW6a` with different counts. -/
def fcW6b : FlowCell := ⟨8, [libW6], [histW6b]⟩

theorem claim_C6_witness : get_index_errors fcW6a = get_index_errors fcW6b :=
  claim_C6_count_independent fcW6a fcW6b rfl rfl
    (List.Forall₂.cons ⟨rfl, rfl, rfl, rfl⟩ List.Forall₂.nil)

/-! ## Reference-over-literal precedence (C8) -/

/-- Two libraries that agree on everything except that a slot's literal
sequence may differ whenever that slot's reference is set. -/
def litR (a b : Library) : Prop :=
  a.sodar_uuid = b.sodar_uuid ∧ a.name = b.name
    ∧ a.lane_numbers = b.lane_numbers
    ∧ a.barcode = b.barcode ∧ a.barcode2 = b.barcode2
    ∧ (a.barcode = none → a.barcode_seq = b.barcode_seq)
    ∧ (a.barcode2 = none → a.barcode_seq2 = b.barcode_seq2)

theorem litR_seq {a b : Library} (h : litR a b) :
    a.get_barcode_seq = b.get_barcode_seq := by
  obtain ⟨_, _, _, hb, _, hlit, _⟩ := h
  rw [Library.get_barcode_seq, Library.get_barcode_seq, ← hb]
  cases hab : a.barcode with
  | some e => rfl
  | none => exact hlit hab

theorem litR_seq2 {a b : Library} (h : litR a b) :
    a.get_barcode_seq2 = b.get_barcode_seq2 := by
  obtain ⟨_, _, _, _, hb, _, hlit⟩ := h
  rw [Library.get_barcode_seq2, Library.get_barcode_seq2, ← hb]
  cases hab : a.barcode2 with
  | some e => rfl
  | none => exact hlit hab

theorem forall₂_append_single {γ : Type w} {R : γ → γ → Prop}
    {l1 l2 : List γ} (h : List.Forall₂ R l1 l2) {x y : γ} (hxy : R x y) :
    List.Forall₂ R (l1 ++ [x]) (l2 ++ [y]) := by
  induction h with
  | nil => exact List.Forall₂.cons hxy List.Forall₂.nil
  | cons hab _ ih => exact List.Forall₂.cons hab ih

theorem upsert_rel {α : Type u} {γ : Type w} [DecidableEq α]
    {V : γ → γ → Prop} {m1 m2 : List (α × γ)}
    (hm : List.Forall₂ (fun e1 e2 => e1.1 = e2.1 ∧ V e1.2 e2.2) m1 m2)
    (k : α) {d1 d2 : γ} (hd : V d1 d2) {f1 f2 : γ → γ}
    (hf : ∀ v1 v2, V v1 v2 → V (f1 v1) (f2 v2)) :
    List.Forall₂ (fun e1 e2 => e1.1 = e2.1 ∧ V e1.2 e2.2)
      (upsert k d1 f1 m1) (upsert k d2 f2 m2) := by
  induction hm with
  | nil => exact List.Forall₂.cons ⟨rfl, hf _ _ hd⟩ List.Forall₂.nil
  | @cons a b l1 l2 hab htail ih =>
    obtain ⟨k1, v1⟩ := a
    obtain ⟨k2, v2⟩ := b
    obtain ⟨hk, hv⟩ := hab
    simp only at hk hv
    subst hk
    by_cases hkk : k1 = k
    · rw [upsert, if_pos hkk, upsert, if_pos hkk]
      exact List.Forall₂.cons ⟨rfl, hf _ _ hv⟩ htail
    · rw [upsert, if_neg hkk, upsert, if_neg hkk]
      exact List.Forall₂.cons ⟨rfl, hv⟩ ih

theorem alookup_rel {α : Type u} {γ : Type w} [DecidableEq α]
    {V : γ → γ → Prop} {m1 m2 : List (α × γ)}
    (hm : List.Forall₂ (fun e1 e2 => e1.1 = e2.1 ∧ V e1.2 e2.2) m1 m2)
    (k : α) :
    (alookup k m1 = none ∧ alookup k m2 = none)
    ∨ ∃ v1 v2, alookup k m1 = some v1 ∧ alookup k m2 = some v2 ∧ V v1 v2 := by
  induction hm with
  | nil => exact Or.inl ⟨rfl, rfl⟩
  | @cons a b l1 l2 hab htail ih =>
    obtain ⟨k1, v1⟩ := a
    obtain ⟨k2, v2⟩ := b
    obtain ⟨hk, hv⟩ := hab
    simp only at hk hv
    subst hk
    by_cases hkk : k1 = k
    · exact Or.inr ⟨v1, v2, by rw [alookup, if_pos hkk],
        by rw [alookup, if_pos hkk], hv⟩
    · rw [alookup, if_neg hkk, alookup, if_neg hkk]
      exact ih

theorem alookup_rel_getD {α : Type u} {δ : Type w} [DecidableEq α]
    {R : δ → δ → Prop} {m1 m2 : List (α × List δ)}
    (hm : List.Forall₂ (fun e1 e2 => e1.1 = e2.1 ∧ List.Forall₂ R e1.2 e2.2) m1 m2)
    (k : α) :
    List.Forall₂ R ((alookup k m1).getD []) ((alookup k m2).getD []) := by
  rcases alookup_rel hm k with ⟨h1, h2⟩ | ⟨v1, v2, h1, h2, hv⟩
  · rw [h1, h2]
    exact List.Forall₂.nil
  · rw [h1, h2]
    exact hv

theorem map_fst_eq_of_rel {α : Type u} {γ : Type w}
    {V : γ → γ → Prop} {m1 m2 : List (α × γ)}
    (hm : List.Forall₂ (fun e1 e2 => e1.1 = e2.1 ∧ V e1.2 e2.2) m1 m2) :
    m1.map Prod.fst = m2.map Prod.fst := by
  induction hm with
  | nil => rfl
  | cons hab _ ih =>
    rw [List.map_cons, List.map_cons, hab.1, ih]

theorem foldl_eq_of_rel {σ : Type u} {β1 β2 : Type v}
    (R : β1 → β2 → Prop) (f1 : σ → β1 → σ) (f2 : σ → β2 → σ)
    (hstep : ∀ s b1 b2, R b1 b2 → f1 s b1 = f2 s b2)
    {l1 : List β1} {l2 : List β2} (hl : List.Forall₂ R l1 l2) :
    ∀ s, l1.foldl f1 s = l2.foldl f2 s := by
  induction hl with
  | nil => intro s; rfl
  | cons hab _ ih =>
    intro s
    rw [List.foldl_cons, List.foldl_cons, hstep s _ _ hab]
    exact ih _

theorem foldl_rel {σ1 σ2 : Type u} {β1 β2 : Type v}
    (S : σ1 → σ2 → Prop) (R : β1 → β2 → Prop)
    (f1 : σ1 → β1 → σ1) (f2 : σ2 → β2 → σ2)
    (hstep : ∀ s1 s2 b1 b2, S s1 s2 → R b1 b2 → S (f1 s1 b1) (f2 s2 b2))
    {l1 : List β1} {l2 : List β2} (hl : List.Forall₂ R l1 l2) :
    ∀ s1 s2, S s1 s2 → S (l1.foldl f1 s1) (l2.foldl f2 s2) := by
  induction hl with
  | nil => intro s1 s2 h; exact h
  | cons hab _ ih =>
    intro s1 s2 h
    rw [List.foldl_cons, List.foldl_cons]
    exact ih _ _ (hstep _ _ _ _ h hab)

/-- Entry relation of the per-barcode group dicts under `litR`. -/
def libEntryRel (e1 e2 : Nat × Library) : Prop :=
  e1.1 = e2.1 ∧ litR e1.2 e2.2

/-- The two checker states agree up to differing literals under set
references. -/
def SheetRel (st1 st2 : SheetMaps) : Prop :=
  st1.result = st2.result
  ∧ List.Forall₂ (fun e1 e2 => e1.1 = e2.1 ∧ litR e1.2 e2.2)
      st1.by_uuid st2.by_uuid
  ∧ List.Forall₂ (fun e1 e2 => e1.1 = e2.1 ∧ List.Forall₂ litR e1.2 e2.2)
      st1.by_name st2.by_name
  ∧ List.Forall₂ (fun e1 e2 => e1.1 = e2.1 ∧ List.Forall₂ libEntryRel e1.2 e2.2)
      st1.by_barcode st2.by_barcode
  ∧ List.Forall₂ (fun e1 e2 => e1.1 = e2.1 ∧ List.Forall₂ libEntryRel e1.2 e2.2)
      st1.by_barcode2 st2.by_barcode2

theorem dassign_rel {a b : Library} (hab : litR a b)
    {d1 d2 : List (Nat × Library)}
    (hd : List.Forall₂ (fun e1 e2 => e1.1 = e2.1 ∧ litR e1.2 e2.2) d1 d2) :
    List.Forall₂ (fun e1 e2 => e1.1 = e2.1 ∧ litR e1.2 e2.2)
      (dassign a.sodar_uuid a d1) (dassign b.sodar_uuid b d2) := by
  unfold dassign
  rw [hab.1]
  exact upsert_rel hd b.sodar_uuid hab (fun v1 v2 _ => hab)

theorem gatherLane_rel {a b : Library} (hab : litR a b)
    {st1 st2 : SheetMaps} (hst : SheetRel st1 st2) (lane : Int) :
    SheetRel (gatherLane a st1 lane) (gatherLane b st2 lane) := by
  obtain ⟨hres, huuid, hname, hbc, hbc2⟩ := hst
  refine ⟨hres, huuid, ?_, ?_, ?_⟩
  · rw [show (gatherLane a st1 lane).by_name
      = upsert (lane, a.name) [] (fun ls => ls ++ [a]) st1.by_name from rfl]
    rw [show (gatherLane b st2 lane).by_name
      = upsert (lane, b.name) [] (fun ls => ls ++ [b]) st2.by_name from rfl]
    rw [hab.2.1]
    exact upsert_rel hname (lane, b.name) List.Forall₂.nil
      (fun v1 v2 hv => forall₂_append_single hv hab)
  · rw [show (gatherLane a st1 lane).by_barcode
      = upsert (lane, a.get_barcode_seq) []
          (fun d => dassign a.sodar_uuid a d) st1.by_barcode from rfl]
    rw [show (gatherLane b st2 lane).by_barcode
      = upsert (lane, b.get_barcode_seq) []
          (fun d => dassign b.sodar_uuid b d) st2.by_barcode from rfl]
    rw [litR_seq hab]
    exact upsert_rel hbc (lane, b.get_barcode_seq) List.Forall₂.nil
      (fun v1 v2 hv => dassign_rel hab hv)
  · rw [show (gatherLane a st1 lane).by_barcode2
      = upsert (lane, a.get_barcode_seq2) []
          (fun d => dassign a.sodar_uuid a d) st1.by_barcode2 from rfl]
    rw [show (gatherLane b st2 lane).by_barcode2
      = upsert (lane, b.get_barcode_seq2) []
          (fun d => dassign b.sodar_uuid b d) st2.by_barcode2 from rfl]
    rw [litR_seq2 hab]
    exact upsert_rel hbc2 (lane, b.get_barcode_seq2) List.Forall₂.nil
      (fun v1 v2 hv => dassign_rel hab hv)

theorem gatherLibrary_split (n : Int) (st : SheetMaps) (lib : Library) :
    gatherLibrary n st lib
      = lib.lane_numbers.foldl (gatherLane lib)
          ⟨libResultStep n st.result lib,
            dassign lib.sodar_uuid lib st.by_uuid,
            st.by_name, st.by_barcode, st.by_barcode2⟩ := by
  unfold gatherLibrary libResultStep
  by_cases h1 : re_match_name lib.name <;>
    by_cases h2 : (badLaneNumbers n lib).isEmpty <;> simp [h1, h2]

theorem gatherLibrary_rel (n : Int) {a b : Library} (hab : litR a b)
    {st1 st2 : SheetMaps} (hst : SheetRel st1 st2) :
    SheetRel (gatherLibrary n st1 a) (gatherLibrary n st2 b) := by
  have hlanes : a.lane_numbers = b.lane_numbers := hab.2.2.1
  have hbadeq : badLaneNumbers n a = badLaneNumbers n b := by
    unfold badLaneNumbers
    rw [hlanes]
  obtain ⟨hres, huuid, hname, hbc, hbc2⟩ := hst
  rw [gatherLibrary_split, gatherLibrary_split, hlanes]
  refine foldl_rel SheetRel Eq (gatherLane a) (gatherLane b)
    (fun s1 s2 l1 l2 hs hl => by rw [← hl]; exact gatherLane_rel hab hs l1)
    (List.forall₂_same.mpr (fun x _ => rfl)) _ _ ?_
  refine ⟨?_, dassign_rel hab huuid, hname, hbc, hbc2⟩
  show libResultStep n st1.result a = libResultStep n st2.result b
  rw [hres]
  unfold libResultStep
  rw [hab.2.1, hbadeq, hab.1]

theorem gatherAll_rel (n : Int) {libs1 libs2 : List Library}
    (hl : List.Forall₂ litR libs1 libs2) :
    SheetRel (gatherAll n libs1) (gatherAll n libs2) := by
  unfold gatherAll
  refine foldl_rel SheetRel litR (gatherLibrary n) (gatherLibrary n)
    (fun s1 s2 a b hs hab => gatherLibrary_rel n hab hs) hl initMaps initMaps
    ⟨rfl, List.Forall₂.nil, List.Forall₂.nil, List.Forall₂.nil, List.Forall₂.nil⟩

theorem nameBadLanes_rel {m1 m2 : List ((Int × String) × List Library)}
    (hm : List.Forall₂
      (fun e1 e2 => e1.1 = e2.1 ∧ List.Forall₂ litR e1.2 e2.2) m1 m2) :
    nameBadLanes m1 = nameBadLanes m2 := by
  unfold nameBadLanes
  refine foldl_eq_of_rel _ _ _ ?_ hm []
  intro bl kv1 kv2 hkv
  obtain ⟨hk, hv⟩ := hkv
  rw [hk, hv.length_eq]
  split_ifs with hc
  · exact foldl_eq_of_rel litR _ _ (fun s b1 b2 hb => by rw [hb.1]) hv bl
  · rfl

theorem clashesFor_rel {st1 st2 : SheetMaps} (hst : SheetRel st1 st2)
    {grp1 grp2 : List (Nat × Library)}
    (hg : List.Forall₂ libEntryRel grp1 grp2) (lane : Int)
    {a b : Library} (hab : litR a b) :
    clashesFor st1 grp1 lane a = clashesFor st2 grp2 lane b := by
  simp only [clashesFor]
  rw [litR_seq2 hab, hab.1, map_fst_eq_of_rel hg,
    map_fst_eq_of_rel (alookup_rel_getD hst.2.2.2.2 (lane, b.get_barcode_seq2))]

theorem barcodeBadLanes_rel {st1 st2 : SheetMaps} (hst : SheetRel st1 st2) :
    barcodeBadLanes st1 = barcodeBadLanes st2 := by
  unfold barcodeBadLanes
  refine foldl_eq_of_rel
    (fun e1 e2 => e1.1 = e2.1 ∧ List.Forall₂ libEntryRel e1.2 e2.2)
    _ _ ?_ hst.2.2.2.1 []
  intro bl kv1 kv2 hkv
  obtain ⟨hk, hv⟩ := hkv
  rw [hk]
  refine foldl_eq_of_rel libEntryRel _ _ ?_ hv bl
  intro s ul1 ul2 hul
  dsimp only
  rw [clashesFor_rel hst hv kv2.1.1 hul.2, hul.2.1]

theorem addNameErrors_rel {st1 st2 : SheetMaps} (hst : SheetRel st1 st2)
    (result : ErrMap) : addNameErrors st1 result = addNameErrors st2 result := by
  unfold addNameErrors
  rw [nameBadLanes_rel hst.2.2.1]
  refine foldl_eq_of_rel Eq _ _ ?_ (List.forall₂_same.mpr fun x _ => rfl) result
  intro r ul1 ul2 h
  subst h
  rcases alookup_rel hst.2.1 ul1.1 with ⟨h1, h2⟩ | ⟨v1, v2, h1, h2, hv⟩
  · rw [h1, h2]
  · rw [h1, h2]
    dsimp only
    rw [hv.2.1]

theorem addBarcodeErrors_rel {st1 st2 : SheetMaps} (hst : SheetRel st1 st2)
    (result : ErrMap) :
    addBarcodeErrors st1 result = addBarcodeErrors st2 result := by
  unfold addBarcodeErrors
  rw [barcodeBadLanes_rel hst]
  refine foldl_eq_of_rel Eq _ _ ?_ (List.forall₂_same.mpr fun x _ => rfl) result
  intro r ul1 ul2 h
  subst h
  rcases alookup_rel hst.2.1 ul1.1 with ⟨h1, h2⟩ | ⟨v1, v2, h1, h2, hv⟩
  · rw [h1, h2]
  · have hk : barcodeKeys v1 = barcodeKeys v2 := by
      unfold barcodeKeys
      rw [litR_seq hv, litR_seq2 hv]
    rw [h1, h2]
    dsimp only
    rw [hk, litR_seq hv, litR_seq2 hv]

theorem sheet_errors_litR {fc1 fc2 : FlowCell}
    (hn : fc1.num_lanes = fc2.num_lanes)
    (hl : List.Forall₂ litR fc1.libraries fc2.libraries) :
    get_sample_sheet_errors fc1 = get_sample_sheet_errors fc2 := by
  have hst : SheetRel (gatherAll fc1.num_lanes fc1.libraries)
      (gatherAll fc2.num_lanes fc2.libraries) := by
    rw [hn]
    exact gatherAll_rel _ hl
  rw [show get_sample_sheet_errors fc1
      = addBarcodeErrors (gatherAll fc1.num_lanes fc1.libraries)
          (addNameErrors (gatherAll fc1.num_lanes fc1.libraries)
            (gatherAll fc1.num_lanes fc1.libraries).result) from rfl]
  rw [show get_sample_sheet_errors fc2
      = addBarcodeErrors (gatherAll fc2.num_lanes fc2.libraries)
          (addNameErrors (gatherAll fc2.num_lanes fc2.libraries)
            (gatherAll fc2.num_lanes fc2.libraries).result) from rfl]
  rw [hst.1, addNameErrors_rel hst, addBarcodeErrors_rel hst]

theorem expectedStep_litR (r : Int) (es : List String) {a b : Library}
    (hab : litR a b) : expectedStep r es a = expectedStep r es b := by
  obtain ⟨_, _, _, hb1, hb2, hl1, hl2⟩ := hab
  unfold expectedStep
  by_cases hr : r = 0
  · simp only [if_pos hr]
    rw [← hb1]
    cases hc : a.barcode with
    | some e => rfl
    | none => rw [hl1 hc]
  · simp only [if_neg hr]
    rw [← hb2]
    cases hc : a.barcode2 with
    | some e => rfl
    | none => rw [hl2 hc]

theorem expectedSeqs_litR {libs1 libs2 : List Library}
    (hl : List.Forall₂ litR libs1 libs2) (hist : LaneIndexHistogram) :
    expectedSeqs libs1 hist = expectedSeqs libs2 hist := by
  unfold expectedSeqs
  refine foldl_eq_of_rel litR _ _ ?_ hl []
  intro es a b hab
  dsimp only
  rw [hab.2.2.1]
  by_cases hm : hist.lane ∈ b.lane_numbers
  · rw [if_pos hm, if_pos hm, expectedStep_litR _ _ hab]
  · rw [if_neg hm, if_neg hm]

theorem histErrors_litR {libs1 libs2 : List Library}
    (hl : List.Forall₂ litR libs1 libs2) (hist : LaneIndexHistogram)
    (result : List ((Int × Int × String) × List String)) :
    histErrors libs1 hist result = histErrors libs2 hist result := by
  unfold histErrors
  rw [expectedSeqs_litR hl hist]

theorem index_errors_litR {fc1 fc2 : FlowCell}
    (hlibs : List.Forall₂ litR fc1.libraries fc2.libraries)
    (hh : fc1.index_histograms = fc2.index_histograms) :
    get_index_errors fc1 = get_index_errors fc2 := by
  unfold get_index_errors
  rw [hh]
  refine foldl_eq_of_rel Eq _ _ ?_ (List.forall₂_same.mpr fun x _ => rfl) []
  intro r h1 h2 he
  subst he
  exact histErrors_litR hlibs h1 r

/-- C8: the resolved sequence of each barcode slot is the referenced
`BarcodeSetEntry`'s sequence whenever a reference is set (even when a
literal sequence is also set), and the literal sequence field otherwise;
consequently both checkers give identical reports on two flow cells whose
libraries differ only in literal sequences shadowed by set references
(the relation `litR`). -/
theorem claim_C8_reference_precedence :
    (∀ (L : Library) (e : BarcodeSetEntry),
        L.barcode = some e → L.get_barcode_seq = some e.sequence)
    ∧ (∀ L : Library, L.barcode = none → L.get_barcode_seq = L.barcode_seq)
    ∧ (∀ (L : Library) (e : BarcodeSetEntry),
        L.barcode2 = some e → L.get_barcode_seq2 = some e.sequence)
    ∧ (∀ L : Library, L.barcode2 = none → L.get_barcode_seq2 = L.barcode_seq2)
    ∧ (∀ fc1 fc2 : FlowCell, fc1.num_lanes = fc2.num_lanes →
        fc1.index_histograms = fc2.index_histograms →
        List.Forall₂ litR fc1.libraries fc2.libraries →
        get_sample_sheet_errors fc1 = get_sample_sheet_errors fc2
          ∧ get_index_errors fc1 = get_index_errors fc2) := by
  refine ⟨?_, ?_, ?_, ?_, ?_⟩
  · intro L e h
    unfold Library.get_barcode_seq
    rw [h]
  · intro L h
    unfold Library.get_barcode_seq
    rw [h]
  · intro L e h
    unfold Library.get_barcode_seq2
    rw [h]
  · intro L h
    unfold Library.get_barcode_seq2
    rw [h]
  · intro fc1 fc2 hn hh hl
    exact ⟨sheet_errors_litR hn hl, index_errors_litR hl hh⟩

/-- Referenced barcode entry of the C8 witness. -/
def entW8 : BarcodeSetEntry := ⟨"AAAA"⟩

/-- C8 witness library: reference set, literal also set to `TTTT`. -/
def libW8a : Library := ⟨1, "L", some entW8, some "TTTT", none, some "CCCC", [1]⟩

/-- C8 witness library: same as `libW8a` but the shadowed literal differs. -/
def libW8b : Library := ⟨1, "L", some entW8, some "GGGG", none, some "CCCC", [1]⟩

/-- Histogram for the C8 witness. -/
def histW8 : LaneIndexHistogram := ⟨1, 0, 10, [("AAAA", 5), ("TTTT", 3)]⟩

/-- First C8 witness flow cell. -/
def fcW8a : FlowCell := ⟨8, [libW8a], [histW8]⟩

/-- Second C8 witness flow cell, differing only in the shadowed literal. -/
def fcW8b : FlowCell := ⟨8, [libW8b], [histW8]⟩

theorem length_filter_le_one_of_forall_eq {γ : Type u} {l0 : List γ}
    (hnd : l0.Nodup) {p : γ → Bool} {x : γ}
    (hp : ∀ y ∈ l0, p y = true → y = x) :
    (l0.filter p).length ≤ 1 := by
  induction l0 with
  | nil => simp
  | cons a t ih =>
    rw [List.nodup_cons] at hnd
    rw [List.filter_cons]
    by_cases h : p a = true
    · rw [if_pos h]
      have hnil : t.filter p = [] := by
        rw [List.filter_eq_nil_iff]
        intro b hb hpb
        have hba : b = a := (hp b (List.mem_cons_of_mem a hb) hpb).trans
          (hp a (List.mem_cons_self a t) h).symm
        exact hnd.1 (hba ▸ hb)
      rw [hnil]
      simp
    · rw [if_neg h]
      exact ih hnd.2 (fun y hy => hp y (List.mem_cons_of_mem a hy))

theorem nodup_name_group_filtered {libs : List Library} (hn : uuidsNodup libs)
    (hlanes : ∀ lib ∈ libs, lib.lane_numbers.Nodup) (l : Int) (nm : String) :
    (((nameOccs libs).filter (fun p => (p.1, p.2.name) = (l, nm))).map
      Prod.snd).Nodup := by
  rw [nameOccs, List.filter_flatMap, List.map_flatMap]
  have hstep : ∀ lib : Library,
      (((lib.lane_numbers.map (fun l' => (l', lib))).filter
        (fun p => (p.1, p.2.name) = (l, nm))).map Prod.snd)
      = (lib.lane_numbers.filter (fun l' => (l', lib.name) = (l, nm))).map
          (fun _ => lib) := by
    intro lib
    rw [List.filter_map, List.map_map]
    rfl
  have hflat : (libs.flatMap (fun lib =>
      ((lib.lane_numbers.map (fun l' => (l', lib))).filter
        (fun p => (p.1, p.2.name) = (l, nm))).map Prod.snd))
      = (libs.map (fun lib =>
          (lib.lane_numbers.filter (fun l' => (l', lib.name) = (l, nm))).map
            (fun _ => lib))).flatten := by
    rw [List.flatMap]
    exact congrArg List.flatten (List.map_congr_left (fun lib _ => hstep lib))
  rw [hflat, List.nodup_flatten]
  constructor
  · intro ls hls
    obtain ⟨lib, hlib, hlibls⟩ := List.mem_map.mp hls
    rw [← hlibls, List.map_const', List.nodup_replicate]
    have hp : ∀ y ∈ lib.lane_numbers,
        decide ((y, lib.name) = (l, nm)) = true → y = l := by
      intro y hy hpy
      exact congrArg Prod.fst (of_decide_eq_true hpy)
    exact length_filter_le_one_of_forall_eq (hlanes lib hlib) hp
  · rw [List.pairwise_map]
    have hpw : libs.Pairwise (fun a b => a.sodar_uuid ≠ b.sodar_uuid) := by
      have hnd := hn
      rw [uuidsNodup, List.Nodup, List.pairwise_map] at hnd
      exact hnd
    apply hpw.imp_of_mem
    intro a b ha hb hne x hxa hxb
    obtain ⟨y1, hy1, hy1x⟩ := List.mem_map.mp hxa
    obtain ⟨y2, hy2, hy2x⟩ := List.mem_map.mp hxb
    have ha2 : a = x := hy1x
    have hb2 : b = x := hy2x
    exact hne (congrArg Library.sodar_uuid (ha2.trans hb2.symm))

theorem nodup_by_name_group_of_mem (n : Int) {libs : List Library}
    (hn : uuidsNodup libs) (hlanes : ∀ lib ∈ libs, lib.lane_numbers.Nodup)
    {kv : (Int × String) × List Library}
    (hkv : kv ∈ (gatherAll n libs).by_name) : kv.2.Nodup := by
  have hkv2 : alookup kv.1 (gatherAll n libs).by_name = some kv.2 :=
    (mem_iff_alookup _ (nodup_keys_by_name n libs) kv.1 kv.2).mp
      (by rwa [Prod.mk.eta])
  have hkv3 : alookup (kv.1.1, kv.1.2) (gatherAll n libs).by_name
      = some kv.2 := by
    rw [Prod.mk.eta]
    exact hkv2
  rw [alookup_by_name_groups] at hkv3
  by_cases h : ((nameOccs libs).filter
      (fun p => (p.1, p.2.name) = (kv.1.1, kv.1.2))).isEmpty
  · rw [if_pos h] at hkv3
    exact absurd hkv3 (by simp)
  · rw [if_neg h] at hkv3
    have heq := Option.some_inj.mp hkv3
    rw [← heq]
    exact nodup_name_group_filtered hn hlanes kv.1.1 kv.1.2

/-- A library `L` shares its `(lane, name)` pair with some other library on
lane `l`: they share the lane and have equal names. -/
def sharesNameAt (libs : List Library) (L : Library) (l : Int) : Prop :=
  ∃ B ∈ libs, B.sodar_uuid ≠ L.sodar_uuid ∧ l ∈ L.lane_numbers
    ∧ l ∈ B.lane_numbers ∧ B.name = L.name

theorem mem_nameStream_sharesName (n : Int) {libs : List Library}
    (hn : uuidsNodup libs) (hlanes : ∀ lib ∈ libs, lib.lane_numbers.Nodup)
    {L : Library} (hL : L ∈ libs) (l : Int) :
    (L.sodar_uuid, l) ∈ nameStream (gatherAll n libs).by_name
      ↔ sharesNameAt libs L l := by
  rw [mem_nameStream]
  constructor
  · rintro ⟨kv, hkv, hlen, b, hb, hbu, hkl⟩
    have hbu2 : b.sodar_uuid = L.sodar_uuid := hbu
    have hkl2 : kv.1.1 = l := hkl
    have hbmem := by_name_entry_mem n libs hkv hb
    have hbL : b = L := uuid_inj hn hbmem.1 hL hbu2
    have hk2 : kv.1.2 = L.name := by
      rw [← hbmem.2.2, hbL]
    have hndgrp : kv.2.Nodup := nodup_by_name_group_of_mem n hn hlanes hkv
    have hexB : ∃ B ∈ kv.2, B ≠ L := by
      by_contra hall
      push_neg at hall
      have hLin : L ∈ kv.2 := by
        rw [← hbL]
        exact hb
      have hsing : kv.2 = [L] := by
        cases hkv2eq : kv.2 with
        | nil =>
          rw [hkv2eq] at hLin
          exact absurd hLin (List.not_mem_nil L)
        | cons x rest =>
          have hxL : x = L := hall x (by rw [hkv2eq]; exact List.mem_cons_self _ _)
          have hrest : rest = [] := by
            cases hr : rest with
            | nil => rfl
            | cons y rest2 =>
              have hyL : y = L := hall y (by
                rw [hkv2eq, hr]
                exact List.mem_cons_of_mem _ (List.mem_cons_self _ _))
              rw [hkv2eq, hr] at hndgrp
              rw [List.nodup_cons] at hndgrp
              refine absurd ?_ hndgrp.1
              rw [hxL, hyL]
              exact List.mem_cons_self _ _
          rw [hxL, hrest]
      refine hlen ?_
      rw [hsing]
      rfl
    obtain ⟨B, hBgrp, hBneL⟩ := hexB
    have hBmem := by_name_entry_mem n libs hkv hBgrp
    refine ⟨B, hBmem.1, ?_, ?_, ?_, ?_⟩
    · intro hc
      exact hBneL (uuid_inj hn hBmem.1 hL hc)
    · rw [← hkl2, ← hbL]
      exact hbmem.2.1
    · rw [← hkl2]
      exact hBmem.2.1
    · rw [hBmem.2.2, hk2]
  · rintro ⟨B, hB, hne, hlL, hlB, hname⟩
    have hne0 : ¬ ((nameOccs libs).filter
        (fun p => (p.1, p.2.name) = (l, L.name))).isEmpty := by
      rw [List.isEmpty_iff]
      intro hnil
      rw [List.filter_eq_nil_iff] at hnil
      exact hnil (l, L) ((mem_nameOccs libs l L).mpr ⟨hL, hlL⟩) (by simp)
    have hlook : alookup (l, L.name) (gatherAll n libs).by_name
        = some (((nameOccs libs).filter
          (fun p => (p.1, p.2.name) = (l, L.name))).map Prod.snd) := by
      rw [alookup_by_name_groups, if_neg hne0]
    have hLgrp : L ∈ (alookup (l, L.name) (gatherAll n libs).by_name).getD [] :=
      (mem_by_name_group n libs l L.name L).mpr ⟨hL, hlL, rfl⟩
    have hBgrp : B ∈ (alookup (l, L.name) (gatherAll n libs).by_name).getD [] :=
      (mem_by_name_group n libs l L.name B).mpr ⟨hB, hlB, hname⟩
    rw [hlook, Option.getD_some] at hLgrp hBgrp
    have hlen : (((nameOccs libs).filter
        (fun p => (p.1, p.2.name) = (l, L.name))).map Prod.snd).length ≠ 1 := by
      intro h1
      obtain ⟨x, hx⟩ := List.length_eq_one.mp h1
      rw [hx] at hLgrp hBgrp
      have h2 : L = x := List.mem_singleton.mp hLgrp
      have h3 : B = x := List.mem_singleton.mp hBgrp
      exact hne (congrArg Library.sodar_uuid (h3.trans h2.symm))
    exact ⟨((l, L.name), ((nameOccs libs).filter
        (fun p => (p.1, p.2.name) = (l, L.name))).map Prod.snd),
      (mem_iff_alookup _ (nodup_keys_by_name n libs) _ _).mpr hlook,
      hlen, L, hLgrp, rfl, rfl⟩

theorem nodup_name_lanes (n : Int) {libs : List Library}
    (hn : uuidsNodup libs) (hlanes : ∀ lib ∈ libs, lib.lane_numbers.Nodup)
    {L : Library} (hL : L ∈ libs) :
    (((nameStream (gatherAll n libs).by_name).filter
        (fun q => q.1 = L.sodar_uuid)).map Prod.snd).Nodup := by
  rw [nameStream, List.filter_flatMap, List.map_flatMap]
  have hstep : ∀ kv : (Int × String) × List Library,
      (((if kv.2.length ≠ 1 then
            kv.2.map (fun lib => (lib.sodar_uuid, kv.1.1))
          else []).filter (fun q => q.1 = L.sodar_uuid)).map Prod.snd)
      = if kv.2.length ≠ 1 then
          (kv.2.filter (fun b => b.sodar_uuid = L.sodar_uuid)).map
            (fun _ => kv.1.1)
        else [] := by
    intro kv
    by_cases h : kv.2.length ≠ 1
    · rw [if_pos h, if_pos h, List.filter_map, List.map_map]
      rfl
    · rw [if_neg h, if_neg h]
      rfl
  have hflat : ((gatherAll n libs).by_name.flatMap (fun kv =>
      ((if kv.2.length ≠ 1 then
          kv.2.map (fun lib => (lib.sodar_uuid, kv.1.1))
        else []).filter (fun q => q.1 = L.sodar_uuid)).map Prod.snd))
      = ((gatherAll n libs).by_name.map (fun kv =>
          if kv.2.length ≠ 1 then
            (kv.2.filter (fun b => b.sodar_uuid = L.sodar_uuid)).map
              (fun _ => kv.1.1)
          else [])).flatten := by
    rw [List.flatMap]
    exact congrArg List.flatten (List.map_congr_left (fun kv _ => hstep kv))
  rw [hflat, List.nodup_flatten]
  have hkeyOf : ∀ kv ∈ (gatherAll n libs).by_name,
      ∀ x ∈ (if kv.2.length ≠ 1 then
          (kv.2.filter (fun b => b.sodar_uuid = L.sodar_uuid)).map
            (fun _ => kv.1.1)
        else []),
      x = kv.1.1 ∧ kv.1.2 = L.name := by
    intro kv hkv x hx
    by_cases h : kv.2.length ≠ 1
    · rw [if_pos h] at hx
      obtain ⟨b, hb, hbx⟩ := List.mem_map.mp hx
      rw [List.mem_filter] at hb
      have huuid : b.sodar_uuid = L.sodar_uuid := of_decide_eq_true hb.2
      have hbmem := by_name_entry_mem n libs hkv hb.1
      have hbL : b = L := uuid_inj hn hbmem.1 hL huuid
      refine ⟨hbx.symm, ?_⟩
      rw [← hbmem.2.2, hbL]
    · rw [if_neg h] at hx
      exact absurd hx (List.not_mem_nil x)
  constructor
  · intro ls hls
    obtain ⟨kv, hkv, hkvls⟩ := List.mem_map.mp hls
    rw [← hkvls]
    by_cases h : kv.2.length ≠ 1
    · rw [if_pos h, List.map_const', List.nodup_replicate]
      have hgrpnd : kv.2.Nodup := nodup_by_name_group_of_mem n hn hlanes hkv
      have hp : ∀ y ∈ kv.2,
          decide (y.sodar_uuid = L.sodar_uuid) = true → y = L := by
        intro y hy hpy
        exact uuid_inj hn (by_name_entry_mem n libs hkv hy).1 hL
          (of_decide_eq_true hpy)
      exact length_filter_le_one_of_forall_eq hgrpnd hp
    · rw [if_neg h]
      exact List.nodup_nil
  · rw [List.pairwise_map]
    have hpw : ((gatherAll n libs).by_name).Pairwise (fun a b => a.1 ≠ b.1) := by
      have hnd := nodup_keys_by_name n libs
      rw [List.Nodup, List.pairwise_map] at hnd
      exact hnd
    apply hpw.imp_of_mem
    intro a b ha hb hne x hxa hxb
    have hfa := hkeyOf a ha x hxa
    have hfb := hkeyOf b hb x hxb
    refine hne (Prod.ext ?_ ?_)
    · rw [← hfa.1, ← hfb.1]
    · rw [hfa.2, hfb.2]

theorem name_badLanes_lookup (n : Int) {libs : List Library}
    (hn : uuidsNodup libs) (hlanes : ∀ lib ∈ libs, lib.lane_numbers.Nodup)
    {lib : Library} (hmem : lib ∈ libs) :
    (alookup lib.sodar_uuid
        (nameBadLanes (gatherAll n libs).by_name) = none
      ∧ ∀ l, ¬ sharesNameAt libs lib l)
    ∨ ∃ lanes, alookup lib.sodar_uuid
          (nameBadLanes (gatherAll n libs).by_name) = some lanes
      ∧ lanes.Nodup ∧ lanes ≠ []
      ∧ ∀ l, l ∈ lanes ↔ sharesNameAt libs lib l := by
  rw [nameBadLanes_eq, alookup_groupStepFold]
  have hvs : ∀ l, l ∈ ((nameStream (gatherAll n libs).by_name).filter
      (fun q => q.1 = lib.sodar_uuid)).map Prod.snd
      ↔ sharesNameAt libs lib l := by
    intro l
    rw [← mem_nameStream_sharesName n hn hlanes hmem l]
    constructor
    · intro hl
      obtain ⟨q, hq, hql⟩ := List.mem_map.mp hl
      rw [List.mem_filter] at hq
      have hq1 : q.1 = lib.sodar_uuid := by simpa using hq.2
      rw [show (lib.sodar_uuid, l) = q by rw [← hq1, ← hql, Prod.mk.eta]]
      exact hq.1
    · intro hq
      apply List.mem_map.mpr
      refine ⟨(lib.sodar_uuid, l), ?_, rfl⟩
      rw [List.mem_filter]
      exact ⟨hq, by simp⟩
  by_cases hE : ((nameStream (gatherAll n libs).by_name).filter
      (fun q => q.1 = lib.sodar_uuid)).isEmpty
  · rw [if_pos hE]
    refine Or.inl ⟨rfl, fun l hl => ?_⟩
    rw [List.isEmpty_iff] at hE
    have := (hvs l).mpr hl
    rw [hE] at this
    simp at this
  · rw [if_neg hE]
    refine Or.inr ⟨_, rfl, nodup_name_lanes n hn hlanes hmem, ?_, hvs⟩
    rw [List.isEmpty_iff] at hE
    simp only [Ne, List.map_eq_nil_iff]
    exact hE

/-- Spec-side predicate of C3's second half: no two libraries with
different UUIDs share a `(lane, name)` pair. -/
def distinctLaneNamePairs (libs : List Library) : Prop :=
  ∀ A ∈ libs, ∀ B ∈ libs, ∀ l ∈ A.lane_numbers,
    ¬(A.sodar_uuid ≠ B.sodar_uuid ∧ l ∈ B.lane_numbers ∧ A.name = B.name)

instance (libs : List Library) : Decidable (distinctLaneNamePairs libs) :=
  inferInstanceAs (Decidable (∀ A ∈ libs, ∀ B ∈ libs, ∀ l ∈ A.lane_numbers,
    ¬(A.sodar_uuid ≠ B.sodar_uuid ∧ l ∈ B.lane_numbers ∧ A.name = B.name)))

/-- First C3 counterexample library: its `(lane, name)` pairs clash with no
other library, but its name contains a space. -/
def libC3a : Library := ⟨1, "a b", none, none, none, none, [1]⟩

/-- Second C3 counterexample library: no clash with any other library, but
its lane list contains lane 2 twice. -/
def libC3b : Library := ⟨2, "ok", none, none, none, none, [2, 2]⟩

/-- The C3 counterexample flow cell. -/
def fcC3 : FlowCell := ⟨8, [libC3a, libC3b], []⟩

/-- C3 counterexample: all `(lane, name)` pairs of distinct libraries are
pairwise distinct, yet the checker reports "name" errors for both
libraries — one from the implicit name-character validation, one as a
self-collision caused by a duplicated lane number on a single library. -/
theorem claim_C3_counterexample :
    distinctLaneNamePairs fcC3.libraries
    ∧ errorsFor (get_sample_sheet_errors fcC3) 1 "name" ≠ none
    ∧ errorsFor (get_sample_sheet_errors fcC3) 2 "name" ≠ none := by
  decide

/-- C3 (amended): assume the libraries have pairwise distinct UUIDs,
names passing the character validation, and duplicate-free lane lists.
Then a library gets a "name" error iff it shares a `(lane, name)` pair
with another library on some lane; in that case the error list is exactly
one combined message built from the duplicate-free list of exactly the
offending lanes; and under pairwise distinct `(lane, name)` pairs there
are zero "name" errors. -/
theorem claim_C3_amended (fc : FlowCell) (hn : uuidsNodup fc.libraries)
    (hnames : ∀ lib ∈ fc.libraries, re_match_name lib.name)
    (hlanes : ∀ lib ∈ fc.libraries, lib.lane_numbers.Nodup)
    (lib : Library) (hmem : lib ∈ fc.libraries) :
    ((errorsFor (get_sample_sheet_errors fc) lib.sodar_uuid "name" ≠ none)
        ↔ ∃ l, sharesNameAt fc.libraries lib l)
    ∧ ((∃ l, sharesNameAt fc.libraries lib l) →
        ∃ lanes : List Int, lanes.Nodup
          ∧ (∀ l, l ∈ lanes ↔ sharesNameAt fc.libraries lib l)
          ∧ errorsFor (get_sample_sheet_errors fc) lib.sodar_uuid "name"
              = some [nameUniqMsg lib.name lanes])
    ∧ (distinctLaneNamePairs fc.libraries →
        errorsFor (get_sample_sheet_errors fc) lib.sodar_uuid "name" = none) := by
  rcases name_badLanes_lookup fc.num_lanes hn hlanes hmem with
    ⟨hnone, hnoshare⟩ | ⟨lanes, hsome, hnd, hnenil, hiff⟩
  · have hzero := sheet_name_master_none fc hn hmem hnone
    rw [if_pos (hnames lib hmem)] at hzero
    refine ⟨?_, ?_, fun _ => hzero⟩
    · rw [hzero]
      simp only [ne_eq, not_true_eq_false, false_iff]
      rintro ⟨l, hl⟩
      exact hnoshare l hl
    · rintro ⟨l, hl⟩
      exact absurd hl (hnoshare l)
  · have hval := sheet_name_master_some fc hn hmem hsome
    rw [if_pos (hnames lib hmem), List.nil_append] at hval
    refine ⟨?_, fun _ => ⟨lanes, hnd, hiff, hval⟩, ?_⟩
    · rw [hval]
      simp only [ne_eq, reduceCtorEq, not_false_eq_true, true_iff]
      obtain ⟨l, hl⟩ := List.exists_mem_of_ne_nil lanes hnenil
      exact ⟨l, (hiff l).mp hl⟩
    · intro hdist
      obtain ⟨l, hl⟩ := List.exists_mem_of_ne_nil lanes hnenil
      obtain ⟨B, hB, hne, hlib, hlB, hnm⟩ := (hiff l).mp hl
      exact absurd ⟨Ne.symm hne, hlB, hnm.symm⟩ (hdist lib hmem B hB l hlib)

/-- First C3 witness library. -/
def libW3a : Library := ⟨1, "Lib1", none, none, none, none, [3]⟩

/-- Second C3 witness library: same name, same lane. -/
def libW3b : Library := ⟨2, "Lib1", none, none, none, none, [3]⟩

/-- The C3 witness flow cell. -/
def fcW3 : FlowCell := ⟨8, [libW3a, libW3b], []⟩

theorem claim_C3_witness :
    errorsFor (get_sample_sheet_errors fcW3) 1 "name" ≠ none := by
  have h := claim_C3_amended fcW3 (by decide) (by decide) (by decide)
    libW3a (by decide)
  exact h.1.mpr ⟨3, libW3b, by decide, by decide, by decide, by decide⟩

theorem claim_C8_witness :
    libW8a.get_barcode_seq = some entW8.sequence
    ∧ get_sample_sheet_errors fcW8a = get_sample_sheet_errors fcW8b
    ∧ get_index_errors fcW8a = get_index_errors fcW8b := by
  have hab : litR libW8a libW8b :=
    ⟨rfl, rfl, rfl, rfl, rfl, fun h => Option.noConfusion h, fun h => rfl⟩
  have h := claim_C8_reference_precedence.2.2.2.2 fcW8a fcW8b rfl rfl
    (List.Forall₂.cons hab List.Forall₂.nil)
  exact ⟨claim_C8_reference_precedence.1 libW8a entW8 rfl, h.1, h.2⟩

end Digestiflow
